import Mathlib

/-!
Verification of the b11k segment-activity matching and metrics cache.

This file gives a shallow embedding of the core of the b11k repository:
the SQL helper functions installed by the schema bootstrap
(`find_route_parts_matching_segment`, `find_route_parts_matching_segment_by_name`,
`find_segment_point_indices`, `get_activity_segment_metrics`), the Go cache
layer (`CacheSegmentActivityMatches`, `InvalidateSegmentCache`,
`GetActivitiesForSegment`), the segment CRUD paths that drive invalidation
(`UpdateFavoriteSegment`, `DeleteFavoriteSegment`), the HTTP handler dispatch
(`handleSegmentAPI`), and the ranking function (`sortActivitiesWithMatches`).

Geospatial primitives (PostGIS `ST_Distance`, `ST_DWithin`, `ST_Length`,
`ST_Intersection` of a buffered route with a segment line) are consumed by the
code as an external capability, so they are embedded as an abstract structure
`GeoPrim` of real-valued functions over abstract geometry handles, together
with a well-formedness predicate `GeoPrim.Wf` recording the metric facts that
the PostGIS functions guarantee (non-negativity of distances, a
geometry-to-geometry distance is at most the distance to any vertex of the
second geometry, the intersection of anything with a line is a piece of that
line and hence no longer than it).

Real numbers are modelled by `ℚ`, identifiers and indices by `ℤ`.
-/

namespace B11k

/-- Abstract geospatial primitives. A point geography (a segment vertex or a
point sample location) is identified by an integer handle; a route geography
(one `activity_geometries.route_geog` linestring) likewise; a segment line is
given by the ordered list of its vertex handles (the order `ST_DumpPoints`
produces). The fields embed, in order: `ST_Distance(point, route_geog)`,
`ST_Distance(route_geog, segment_geog)`, `ST_Distance(location, segment_geog)`,
`ST_Distance(location, prev_location)`,
`ST_Length(ST_Intersection(ST_Buffer(route_geog, tol), segment_geog))` and
`ST_Length(segment_geog)`. -/
structure GeoPrim where
  dPointRoute : ℤ → ℤ → ℚ
  dRouteLine : ℤ → List ℤ → ℚ
  dPointLine : ℤ → List ℤ → ℚ
  dPointPoint : ℤ → ℤ → ℚ
  interLen : ℤ → ℚ → List ℤ → ℚ
  segLen : List ℤ → ℚ

/-- Metric facts guaranteed by the PostGIS primitives: distances are
non-negative; the distance between a route and a segment line is at most the
distance from the route to any vertex of that line (the vertex is a point of
the line); an intersection with the segment line is a sub-collection of the
line, so its geodesic length lies between `0` and the line's length. -/
structure GeoPrim.Wf (g : GeoPrim) : Prop where
  dPointRoute_nonneg : ∀ v r, 0 ≤ g.dPointRoute v r
  dPointLine_nonneg : ∀ p s, 0 ≤ g.dPointLine p s
  dRouteLine_le_vertex : ∀ r s v, v ∈ s → g.dRouteLine r s ≤ g.dPointRoute v r
  interLen_nonneg : ∀ r t s, 0 ≤ g.interLen r t s
  interLen_le_segLen : ∀ r t s, g.interLen r t s ≤ g.segLen s

/-- Row of `favorite_segments` (`id` is the primary key, `segment_geog` the
vertex list). -/
structure FavoriteSegment where
  id : ℤ
  athleteId : ℤ
  name : String
  geog : List ℤ
  deriving DecidableEq, Repr

/-- Row of `activity_geometries` (`activity_id` is the primary key). -/
structure ActivityGeometry where
  activityId : ℤ
  athleteId : ℤ
  routeGeog : ℤ
  deriving DecidableEq, Repr

/-- Row of `point_samples` for one activity; `location` is `NOT NULL`, the
sensor columns are nullable. -/
structure PointSample where
  activityId : ℤ
  athleteId : ℤ
  pointIndex : ℤ
  location : ℤ
  altitude : Option ℚ
  heartrate : Option ℚ
  speed : Option ℚ
  deriving DecidableEq, Repr

/-- Result row of the matcher functions, mirroring the Go
`SegmentMatchResult` (`segmentName` is only set by the by-name variant). -/
structure MatchRow where
  activityId : ℤ
  segmentId : ℤ
  segmentName : Option String
  minDistanceM : ℚ
  overlapLengthM : ℚ
  overlapPercentage : ℚ
  deriving DecidableEq, Repr

/-- SQL `MAX(point_dist)` over the per-vertex distances of one candidate in
`activity_geometry_matches`. The SQL aggregate ranges over a non-empty group;
over a non-empty vertex list with non-negative distances the fold below
computes exactly that maximum. -/
def maxPointDistance (g : GeoPrim) (vs : List ℤ) (route : ℤ) : ℚ :=
  (vs.map (fun v => g.dPointRoute v route)).foldl max 0

/-- Candidate and vertex-coverage test of `find_route_parts_matching_segment`:
the `ST_DWithin(route, segment, tol)` pre-filter of `candidate_activities`,
and the `HAVING` clause of `activity_geometry_matches` requiring a non-empty
group of vertex rows in which every vertex distance is within tolerance. -/
def geometryMatches (g : GeoPrim) (tol : ℚ) (sd : FavoriteSegment)
    (a : ActivityGeometry) : Bool :=
  decide (g.dRouteLine a.routeGeog sd.geog ≤ tol)
    && !sd.geog.isEmpty
    && sd.geog.all (fun v => decide (g.dPointRoute v a.routeGeog ≤ tol))

/-- SQL function `find_route_parts_matching_segment(p_segment_id,
p_tolerance_meters)`. The `segment_data` CTE looks the segment up by primary
key; candidates are pre-filtered with `ST_DWithin`, kept only when all dumped
segment vertices are within tolerance of the route, given
`min_distance_m = MAX(point_dist)`, `overlap_length_m` from the buffered
intersection, `overlap_percentage = LEAST(overlap/len*100, 100)` when the
segment length is positive (else `0`), and rows with `overlap_length_m = 0`
are discarded. The final `ORDER BY` is a presentation detail not modelled.
`matchRowOf` is the row constructor of its final `SELECT`. -/
def matchRowOf (g : GeoPrim) (segId : ℤ) (tol : ℚ) (sd : FavoriteSegment)
    (a : ActivityGeometry) : MatchRow :=
  { activityId := a.activityId
    segmentId := segId
    segmentName := none
    minDistanceM := maxPointDistance g sd.geog a.routeGeog
    overlapLengthM := g.interLen a.routeGeog tol sd.geog
    overlapPercentage :=
      if 0 < g.segLen sd.geog then
        min (g.interLen a.routeGeog tol sd.geog / g.segLen sd.geog * 100) 100
      else 0 }

def find_route_parts_matching_segment (g : GeoPrim)
    (segments : List FavoriteSegment) (geoms : List ActivityGeometry)
    (segId : ℤ) (tol : ℚ) : List MatchRow :=
  match segments.find? (fun s => s.id == segId) with
  | none => []
  | some sd =>
    ((geoms.filter (geometryMatches g tol sd)).filter
        (fun a => decide (0 < g.interLen a.routeGeog tol sd.geog))).map
      (matchRowOf g segId tol sd)

/-- SQL function `find_route_parts_matching_segment_by_name(p_segment_name,
p_tolerance_meters)`. Segments are looked up by name (not unique), every
activity passing the `ST_DWithin` filter is reported,
`min_distance_m = ST_Distance(route, line)` (the minimum route-to-line
distance), and `overlap_percentage` is the raw ratio without a `LEAST` cap.
`matchRowByNameOf` is the row constructor of its `SELECT`. -/
def matchRowByNameOf (g : GeoPrim) (tol : ℚ) (q : FavoriteSegment)
    (a : ActivityGeometry) : MatchRow :=
  { activityId := a.activityId
    segmentId := q.id
    segmentName := some q.name
    minDistanceM := g.dRouteLine a.routeGeog q.geog
    overlapLengthM := g.interLen a.routeGeog tol q.geog
    overlapPercentage :=
      if 0 < g.segLen q.geog then
        g.interLen a.routeGeog tol q.geog / g.segLen q.geog * 100
      else 0 }

def find_route_parts_matching_segment_by_name (g : GeoPrim)
    (segments : List FavoriteSegment) (geoms : List ActivityGeometry)
    (segName : String) (tol : ℚ) : List MatchRow :=
  (segments.filter (fun s => s.name == segName)).flatMap (fun q =>
    (geoms.filter (fun a => decide (g.dRouteLine a.routeGeog q.geog ≤ tol))).map
      (matchRowByNameOf g tol q))

/-- Clamp of a percentage into `[0, 100]`, as the specification writes it. -/
def clampPct (q : ℚ) : ℚ := max 0 (min q 100)

/-- Percentage recomputation of `CacheSegmentActivityMatches`: the cached
value is the incoming `overlap_percentage`, except that a zero percentage with
positive overlap and positive segment length is recomputed as the raw ratio. -/
def cacheOverlapPct (m : MatchRow) (segmentLength : ℚ) : ℚ :=
  if m.overlapPercentage = 0 ∧ 0 < m.overlapLengthM ∧ 0 < segmentLength then
    m.overlapLengthM / segmentLength * 100
  else m.overlapPercentage

/-- Row filter shared by `find_segment_point_indices` and
`get_activity_segment_metrics`: the sample belongs to the requested activity
and athlete and its location is within tolerance of the segment line
(`ST_DWithin(ps.location, sl.line, sl.tol)`). -/
def sampleFilter (g : GeoPrim) (sd : FavoriteSegment) (activityId athleteId : ℤ)
    (tol : ℚ) (p : PointSample) : Bool :=
  p.activityId == activityId && p.athleteId == athleteId
    && decide (g.dPointLine p.location sd.geog ≤ tol)

/-- SQL function `find_segment_point_indices(p_segment_id, p_activity_id,
p_athlete_id, p_tolerance_meters)`: `MIN(point_index)` and `MAX(point_index)`
over the in-tolerance samples. With no qualifying row the SQL aggregates are
`NULL` (and the Go caller's `Scan` into `int` then fails), modelled as `none`;
a missing segment empties the `segment_line` CTE and so also yields `NULL`s.
The `ORDER BY` inside the CTE does not affect `MIN`/`MAX` and is not
modelled. -/
def find_segment_point_indices (g : GeoPrim) (segments : List FavoriteSegment)
    (samples : List PointSample) (segId activityId athleteId : ℤ) (tol : ℚ) :
    Option (ℤ × ℤ) :=
  match segments.find? (fun s => s.id == segId) with
  | none => none
  | some sd =>
    match (samples.filter (sampleFilter g sd activityId athleteId tol)).map
        (fun p => p.pointIndex) with
    | [] => none
    | i :: is => some (is.foldl min i, is.foldl max i)

/-- Sample order relation used for the `ORDER BY ps.point_index` window. -/
def idxLe (p q : PointSample) : Prop := p.pointIndex ≤ q.pointIndex

instance : DecidableRel idxLe :=
  fun p q => inferInstanceAs (Decidable (p.pointIndex ≤ q.pointIndex))

instance : IsTotal PointSample idxLe := ⟨fun p q => le_total p.pointIndex q.pointIndex⟩

instance : IsTrans PointSample idxLe := ⟨fun _ _ _ h h2 => le_trans h h2⟩

/-- The `segment_points` CTE of `get_activity_segment_metrics`: in-tolerance
samples of the activity, ordered by `point_index` (the order the `LAG` window
runs over). -/
def activitySegmentPoints (g : GeoPrim) (sd : FavoriteSegment)
    (samples : List PointSample) (activityId athleteId : ℤ) (tol : ℚ) :
    List PointSample :=
  List.insertionSort idxLe (samples.filter (sampleFilter g sd activityId athleteId tol))

/-- SQL `AVG(field) FILTER (WHERE field IS NOT NULL)`: the arithmetic mean of
the present values, `NULL` (here `none`) when no row has the field. -/
def avgOverPresent (f : PointSample → Option ℚ) (l : List PointSample) : Option ℚ :=
  match l.filterMap f with
  | [] => none
  | v :: vs => some ((v :: vs).sum / (v :: vs).length)

/-- Adjacent pairs `(previous, current)` of a list, as produced by the SQL
`LAG` window: the first row has a `NULL` predecessor and is therefore not a
pair. -/
def lagPairs : List PointSample → List (PointSample × PointSample)
  | [] => []
  | [_] => []
  | a :: b :: rest => (a, b) :: lagPairs (b :: rest)

/-- Elevation contribution of one `(prev, cur)` pair: the positive altitude
delta when both altitudes are present, else `0`. -/
def elevTerm : PointSample × PointSample → ℚ
  | (prev, cur) =>
    match prev.altitude, cur.altitude with
    | some pa, some ca => if pa < ca then ca - pa else 0
    | _, _ => 0

/-- Distance contribution of one `(prev, cur)` pair:
`ST_Distance(location, prev_location)`; locations are `NOT NULL`, so every
pair contributes. -/
def distTerm (g : GeoPrim) : PointSample × PointSample → ℚ
  | (prev, cur) => g.dPointPoint cur.location prev.location

/-- The `segment_metrics` CTE row: aggregates over `segment_points`. The sums
are `NULL` exactly when `segment_points` is empty (SQL `SUM` over no rows);
over a single row the `CASE` expressions yield `0`, not `NULL`, which the
`lagPairs` sum reproduces. -/
structure SegmentMetricsRow where
  avgHr : Option ℚ
  avgSpeed : Option ℚ
  elevationGain : Option ℚ
  distanceM : Option ℚ
  deriving DecidableEq, Repr

/-- Aggregation stage of `get_activity_segment_metrics` (the
`segment_metrics` CTE). -/
def segment_metrics (g : GeoPrim) (sd : FavoriteSegment)
    (samples : List PointSample) (activityId athleteId : ℤ) (tol : ℚ) :
    SegmentMetricsRow :=
  let pts := activitySegmentPoints g sd samples activityId athleteId tol
  { avgHr := avgOverPresent (fun p => p.heartrate) pts
    avgSpeed := avgOverPresent (fun p => p.speed) pts
    elevationGain :=
      if pts.isEmpty then none else some (((lagPairs pts).map elevTerm).sum)
    distanceM :=
      if pts.isEmpty then none else some (((lagPairs pts).map (distTerm g)).sum) }

/-- Output row of `get_activity_segment_metrics`: every field is
`COALESCE`d with `0.0`, so the function always returns four numbers. -/
structure SegmentMetricsOut where
  avgHr : ℚ
  avgSpeed : ℚ
  distanceM : ℚ
  elevationGainM : ℚ
  deriving DecidableEq, Repr

/-- SQL function `get_activity_segment_metrics(p_segment_id, p_activity_id,
p_athlete_id, p_tolerance_meters)`: the `segment_metrics` aggregates with
every `NULL` coalesced to `0.0`. A missing segment empties `segment_line` and
hence `segment_points`, giving all zeros. -/
def get_activity_segment_metrics (g : GeoPrim) (segments : List FavoriteSegment)
    (samples : List PointSample) (segId activityId athleteId : ℤ) (tol : ℚ) :
    SegmentMetricsOut :=
  match segments.find? (fun s => s.id == segId) with
  | none => ⟨0, 0, 0, 0⟩
  | some sd =>
    let m := segment_metrics g sd samples activityId athleteId tol
    ⟨m.avgHr.getD 0, m.avgSpeed.getD 0, m.distanceM.getD 0, m.elevationGain.getD 0⟩

/-- Row of `segment_activity_matches`; the primary key is
`(segment_id, activity_id, tolerance_meters)`. Timestamps are rationals
counted in seconds. -/
structure CacheRow where
  segmentId : ℤ
  activityId : ℤ
  toleranceMeters : ℚ
  minDistanceM : ℚ
  overlapLengthM : ℚ
  overlapPercentage : ℚ
  startIndex : Option ℤ
  endIndex : Option ℤ
  avgHr : Option ℚ
  avgSpeed : Option ℚ
  distanceM : Option ℚ
  elevationGainM : Option ℚ
  cachedAt : ℚ
  deriving DecidableEq, Repr

/-- Primary-key test for a cache row. -/
def sameKey (segId actId : ℤ) (tol : ℚ) (r : CacheRow) : Bool :=
  r.segmentId == segId && r.activityId == actId && r.toleranceMeters == tol

/-- One `INSERT ... ON CONFLICT (segment_id, activity_id, tolerance_meters)
DO UPDATE` of `CacheSegmentActivityMatches`: rows with the key get the new
match fields and `cached_at = NOW()` (index and metric columns untouched);
otherwise a fresh row with `NULL` index and metric columns is inserted.
`updatedCacheRow` is the `DO UPDATE` result, `freshCacheRow` the insert. -/
def updatedCacheRow (now pct : ℚ) (m : MatchRow) (r : CacheRow) : CacheRow :=
  { r with minDistanceM := m.minDistanceM
           overlapLengthM := m.overlapLengthM
           overlapPercentage := pct
           cachedAt := now }

/-- The row inserted when the key was not cached yet (`DO NOTHING` columns are
`NULL`). -/
def freshCacheRow (segId : ℤ) (tol now pct : ℚ) (m : MatchRow) : CacheRow :=
  { segmentId := segId, activityId := m.activityId,
    toleranceMeters := tol, minDistanceM := m.minDistanceM,
    overlapLengthM := m.overlapLengthM, overlapPercentage := pct,
    startIndex := none, endIndex := none, avgHr := none,
    avgSpeed := none, distanceM := none, elevationGainM := none,
    cachedAt := now }

def upsertMatchRow (segId : ℤ) (tol now pct : ℚ) (m : MatchRow)
    (st : List CacheRow) : List CacheRow :=
  if st.any (sameKey segId m.activityId tol) then
    st.map (fun r =>
      if sameKey segId m.activityId tol r then updatedCacheRow now pct m r else r)
  else
    st ++ [freshCacheRow segId tol now pct m]

/-- Segment length read by `CacheSegmentActivityMatches` (`SELECT
ST_Length(segment_geog) ... WHERE id = $1`; a failed scan leaves `0`). -/
def segLenOf (g : GeoPrim) (segments : List FavoriteSegment) (segId : ℤ) : ℚ :=
  match segments.find? (fun s => s.id == segId) with
  | some sd => g.segLen sd.geog
  | none => 0

/-- Go `CacheSegmentActivityMatches`: returns immediately on an empty match
list, otherwise upserts every match row in order with the recomputed
percentage. -/
def cacheSegmentActivityMatches (g : GeoPrim) (segments : List FavoriteSegment)
    (st : List CacheRow) (segId : ℤ) (tol now : ℚ) (ms : List MatchRow) :
    List CacheRow :=
  if ms.isEmpty then st
  else
    ms.foldl
      (fun acc m =>
        upsertMatchRow segId tol now (cacheOverlapPct m (segLenOf g segments segId)) m acc)
      st

/-- Freshness window of the match-list cache: `time.Hour`, in seconds. -/
def cacheTTL : ℚ := 3600

/-- The cached rows `getCachedSegmentMatches` returns for one
`(segment_id, tolerance_meters)` key (its `ORDER BY` is presentation only). -/
def cachedMatchesFor (st : List CacheRow) (segId : ℤ) (tol : ℚ) : List CacheRow :=
  st.filter (fun r => r.segmentId == segId && r.toleranceMeters == tol)

/-- SQL `MAX(cached_at)` over a non-empty row group (the guard in
`GetActivitiesForSegment` only evaluates it when rows exist). -/
def newestCachedAt : List CacheRow → ℚ
  | [] => 0
  | r :: rs => (rs.map (fun x => x.cachedAt)).foldl max r.cachedAt

/-- A cached row read back as a `SegmentMatchResult` (the columns
`getCachedSegmentMatches` selects). -/
def cacheRowToMatch (r : CacheRow) : MatchRow :=
  { activityId := r.activityId, segmentId := r.segmentId, segmentName := none,
    minDistanceM := r.minDistanceM, overlapLengthM := r.overlapLengthM,
    overlapPercentage := r.overlapPercentage }

/-- Outcome of one `GetActivitiesForSegment` call: whether the cached list was
used, the match list the caller continues with, and the cache state after the
call. -/
structure ListMatchesOutcome where
  usedCache : Bool
  matchList : List MatchRow
  cache : List CacheRow
  deriving DecidableEq, Repr

/-- Go `GetActivitiesForSegment`: unless `forceRefresh` is set, a non-empty
cached list whose newest `cached_at` is less than one hour old is served as
is; otherwise `find_route_parts_matching_segment` re-runs and its result is
passed to `CacheSegmentActivityMatches`. -/
def getActivitiesForSegment (g : GeoPrim) (segments : List FavoriteSegment)
    (geoms : List ActivityGeometry) (st : List CacheRow) (now : ℚ)
    (segId : ℤ) (tol : ℚ) (forceRefresh : Bool) : ListMatchesOutcome :=
  let cached := cachedMatchesFor st segId tol
  if !forceRefresh && !cached.isEmpty && decide (now - newestCachedAt cached < cacheTTL) then
    ⟨true, cached.map cacheRowToMatch, st⟩
  else
    let ms := find_route_parts_matching_segment g segments geoms segId tol
    ⟨false, ms, cacheSegmentActivityMatches g segments st segId tol now ms⟩

/-- Go `InvalidateSegmentCache`: `DELETE FROM segment_activity_matches WHERE
segment_id = $1`. -/
def invalidateSegmentCache (st : List CacheRow) (segId : ℤ) : List CacheRow :=
  st.filter (fun r => !(r.segmentId == segId))

/-- Row of `activity_summaries` restricted to the columns the ranking and the
handlers consult. -/
structure ActivitySummary where
  id : ℤ
  athleteId : ℤ
  averageHeartrate : ℚ
  averageSpeed : ℚ
  elapsedTime : ℤ
  startDate : ℚ
  deriving DecidableEq, Repr

/-- The database state the segment paths operate on. -/
structure Store where
  segments : List FavoriteSegment
  geoms : List ActivityGeometry
  samples : List PointSample
  summaries : List ActivitySummary
  cache : List CacheRow
  deriving DecidableEq, Repr

/-- Go `UpdateFavoriteSegment`: the `UPDATE ... RETURNING` fails with no rows
when the segment does not exist (`none`); on success the name and geometry are
replaced and `InvalidateSegmentCache` runs. -/
def updateFavoriteSegment (db : Store) (segId : ℤ) (newName : String)
    (newGeog : List ℤ) : Option Store :=
  match db.segments.find? (fun s => s.id == segId) with
  | none => none
  | some _ =>
    some { db with
      segments := db.segments.map (fun s =>
        if s.id == segId then { s with name := newName, geog := newGeog } else s)
      cache := invalidateSegmentCache db.cache segId }

/-- Go `DeleteFavoriteSegment`: `InvalidateSegmentCache` runs first, then the
segment row is deleted; the returned flag is `false` when no row was affected
(the Go function then reports not-found, with the cache already cleared). -/
def deleteFavoriteSegment (db : Store) (segId : ℤ) : Bool × Store :=
  let db2 := { db with cache := invalidateSegmentCache db.cache segId }
  if db2.segments.any (fun s => s.id == segId) then
    (true, { db2 with segments := db2.segments.filter (fun s => !(s.id == segId)) })
  else
    (false, db2)

/-- Response of the `GET /api/segments/:id/activities` subroute. -/
inductive ActivitiesResponse where
  | ok (servedActivityIds : List ℤ) (cache : List CacheRow)
  | forbidden
  deriving DecidableEq, Repr

/-- Go `handleSegmentAPI`, `GET /api/segments/:id/activities` branch: the
authenticated user's id is passed to `GetActivitiesForSegment` as the athlete
id; no segment-ownership check is performed on this path. The served list
keeps the matches whose activity belongs to the requester (the
`GetActivitiesByIDs` filter); sorting does not change its membership and is
modelled separately. -/
def handleSegmentActivitiesGet (g : GeoPrim) (db : Store) (now : ℚ)
    (userId segId : ℤ) (tol : ℚ) (forceRefresh : Bool) : ActivitiesResponse :=
  let res := getActivitiesForSegment g db.segments db.geoms db.cache now segId tol forceRefresh
  let served := (res.matchList.filter (fun m =>
    db.summaries.any (fun a => a.id == m.activityId && a.athleteId == userId))).map
    (fun m => m.activityId)
  .ok served res.cache

/-- Response of the plain `GET /api/segments/:id` route. -/
inductive SegmentResponse where
  | ok (seg : FavoriteSegment)
  | forbidden
  | notFound
  deriving DecidableEq, Repr

/-- Go `handleSegmentAPI`, plain `GET /api/segments/:id` branch: not-found
when the segment does not exist, forbidden when its owner differs from the
requester, else the segment. -/
def handleSegmentGet (db : Store) (userId segId : ℤ) : SegmentResponse :=
  match db.segments.find? (fun s => s.id == segId) with
  | none => .notFound
  | some seg => if seg.athleteId == userId then .ok seg else .forbidden

/-- Response of the `GET /api/segments/:id/activity/:aid/indices` subroute;
`errorResp` is the 500 the handler answers when the `Scan` of the SQL `NULL`
aggregates fails. -/
inductive IndicesResponse where
  | ok (startIndex endIndex : ℤ)
  | errorResp
  deriving DecidableEq, Repr

/-- Go `handleSegmentAPI`, indices branch: no ownership check; a cache entry
with both indices present is served, else `find_segment_point_indices` runs
with the requester's id as the athlete id. -/
def handleSegmentIndicesGet (g : GeoPrim) (db : Store)
    (userId segId activityId : ℤ) (tol : ℚ) : IndicesResponse :=
  let cachedPair :=
    match db.cache.find? (sameKey segId activityId tol) with
    | some r =>
      match r.startIndex, r.endIndex with
      | some s, some e => some (s, e)
      | _, _ => none
    | none => none
  match cachedPair with
  | some (s, e) => .ok s e
  | none =>
    match find_segment_point_indices g db.segments db.samples segId activityId userId tol with
    | some (s, e) => .ok s e
    | none => .errorResp

/-- Item of the match list the ranking operates on, mirroring the Go
`ActivityWithMatch` (whole-activity summary plus match metadata plus the
optional cached segment-scoped metrics). -/
structure ActivityWithMatch where
  summary : ActivitySummary
  minDistanceM : ℚ
  overlapLengthM : ℚ
  overlapPercentage : ℚ
  segmentAvgHr : Option ℚ
  segmentAvgSpeed : Option ℚ
  deriving DecidableEq, Repr

/-- Heart-rate sort key of `sortActivitiesWithMatches`: the cached
segment-scoped average when present, else the whole-activity average when
positive, else `0`. -/
def hrSortValue (a : ActivityWithMatch) : ℚ :=
  match a.segmentAvgHr with
  | some h => h
  | none => if 0 < a.summary.averageHeartrate then a.summary.averageHeartrate else 0

/-- Speed sort key, analogous to `hrSortValue`. -/
def speedSortValue (a : ActivityWithMatch) : ℚ :=
  match a.segmentAvgSpeed with
  | some v => v
  | none => if 0 < a.summary.averageSpeed then a.summary.averageSpeed else 0

/-- Descending heart-rate order (the Go comparator is `hrI > hrJ`; a slice is
sorted for it exactly when the keys are non-increasing). -/
def hrDesc (a b : ActivityWithMatch) : Prop := hrSortValue b ≤ hrSortValue a

instance : DecidableRel hrDesc :=
  fun a b => inferInstanceAs (Decidable (hrSortValue b ≤ hrSortValue a))

instance : IsTotal ActivityWithMatch hrDesc := ⟨fun a b => le_total (hrSortValue b) (hrSortValue a)⟩

instance : IsTrans ActivityWithMatch hrDesc := ⟨fun _ _ _ h h2 => le_trans h2 h⟩

/-- Descending speed order. -/
def speedDesc (a b : ActivityWithMatch) : Prop := speedSortValue b ≤ speedSortValue a

instance : DecidableRel speedDesc :=
  fun a b => inferInstanceAs (Decidable (speedSortValue b ≤ speedSortValue a))

instance : IsTotal ActivityWithMatch speedDesc :=
  ⟨fun a b => le_total (speedSortValue b) (speedSortValue a)⟩

instance : IsTrans ActivityWithMatch speedDesc := ⟨fun _ _ _ h h2 => le_trans h2 h⟩

/-- Descending elapsed-time order. -/
def timeDesc (a b : ActivityWithMatch) : Prop :=
  b.summary.elapsedTime ≤ a.summary.elapsedTime

instance : DecidableRel timeDesc :=
  fun a b => inferInstanceAs (Decidable (b.summary.elapsedTime ≤ a.summary.elapsedTime))

/-- Descending start-date order. -/
def dateDesc (a b : ActivityWithMatch) : Prop :=
  b.summary.startDate ≤ a.summary.startDate

instance : DecidableRel dateDesc :=
  fun a b => inferInstanceAs (Decidable (b.summary.startDate ≤ a.summary.startDate))

/-- Ascending best-match order (default sort). -/
def distAsc (a b : ActivityWithMatch) : Prop := a.minDistanceM ≤ b.minDistanceM

instance : DecidableRel distAsc :=
  fun a b => inferInstanceAs (Decidable (a.minDistanceM ≤ b.minDistanceM))

/-- Go `sortActivitiesWithMatches`: `sort.Slice` with the per-key comparator.
`sort.Slice` guarantees a permutation of the input that is sorted for the
comparator; insertion sort with the corresponding non-strict relation is one
such implementation. -/
def sortActivitiesWithMatches (l : List ActivityWithMatch) (sortBy : String) :
    List ActivityWithMatch :=
  match sortBy with
  | "avg_hr" => List.insertionSort hrDesc l
  | "avg_speed" => List.insertionSort speedDesc l
  | "total_time" => List.insertionSort timeDesc l
  | "date" => List.insertionSort dateDesc l
  | _ => List.insertionSort distAsc l

section FoldBounds

variable {α : Type} [LinearOrder α]

/-- A left fold by `max` dominates its initial value. -/
theorem init_le_foldl_max (l : List α) (init : α) : init ≤ l.foldl max init := by
  induction l generalizing init with
  | nil => exact le_refl _
  | cons a t ih => exact le_trans (le_max_left init a) (ih (max init a))

/-- A left fold by `max` dominates every element of the list. -/
theorem le_foldl_max_of_mem {l : List α} {x : α} (hx : x ∈ l) (init : α) :
    x ≤ l.foldl max init := by
  induction l generalizing init with
  | nil => cases hx
  | cons a t ih =>
    rcases List.mem_cons.mp hx with h | h
    · subst h
      exact le_trans (le_max_right init x) (init_le_foldl_max t _)
    · exact ih h _

/-- Upper bounds of a left fold by `max`. -/
theorem foldl_max_le_iff (l : List α) (init b : α) :
    l.foldl max init ≤ b ↔ init ≤ b ∧ ∀ x ∈ l, x ≤ b := by
  induction l generalizing init with
  | nil => simp
  | cons a t ih =>
    simp only [List.foldl_cons, ih, max_le_iff, List.forall_mem_cons]
    tauto

/-- A left fold by `max` is attained at the initial value or in the list. -/
theorem foldl_max_mem (l : List α) (init : α) : l.foldl max init ∈ init :: l := by
  induction l generalizing init with
  | nil => simp
  | cons a t ih =>
    have h := ih (max init a)
    simp only [List.foldl_cons]
    rcases List.mem_cons.mp h with h1 | h1
    · rcases max_choice init a with hm | hm
      · rw [h1, hm]
        exact List.mem_cons_self _ _
      · rw [h1, hm]
        simp
    · simp only [List.mem_cons]
      tauto

/-- A left fold by `min` is dominated by its initial value. -/
theorem foldl_min_le_init (l : List α) (init : α) : l.foldl min init ≤ init := by
  induction l generalizing init with
  | nil => exact le_refl _
  | cons a t ih => exact le_trans (ih (min init a)) (min_le_left init a)

/-- A left fold by `min` is dominated by every element of the list. -/
theorem foldl_min_le_of_mem {l : List α} {x : α} (hx : x ∈ l) (init : α) :
    l.foldl min init ≤ x := by
  induction l generalizing init with
  | nil => cases hx
  | cons a t ih =>
    rcases List.mem_cons.mp hx with h | h
    · subst h
      exact le_trans (foldl_min_le_init t _) (min_le_right init x)
    · exact ih h _

/-- A left fold by `min` is attained at the initial value or in the list. -/
theorem foldl_min_mem (l : List α) (init : α) : l.foldl min init ∈ init :: l := by
  induction l generalizing init with
  | nil => simp
  | cons a t ih =>
    have h := ih (min init a)
    simp only [List.foldl_cons]
    rcases List.mem_cons.mp h with h1 | h1
    · rcases min_choice init a with hm | hm
      · rw [h1, hm]
        exact List.mem_cons_self _ _
      · rw [h1, hm]
        simp
    · simp only [List.mem_cons]
      tauto

end FoldBounds

/-- Unfolding of the candidate and vertex-coverage test. -/
theorem geometryMatches_iff (g : GeoPrim) (tol : ℚ) (sd : FavoriteSegment)
    (a : ActivityGeometry) :
    geometryMatches g tol sd a = true ↔
      g.dRouteLine a.routeGeog sd.geog ≤ tol ∧ sd.geog ≠ [] ∧
        ∀ v ∈ sd.geog, g.dPointRoute v a.routeGeog ≤ tol := by
  simp [geometryMatches, List.all_eq_true, List.isEmpty_iff, and_assoc]

/-- Membership characterisation of the primary matcher output. -/
theorem mem_find_route_parts {g : GeoPrim} {segments : List FavoriteSegment}
    {geoms : List ActivityGeometry} {segId : ℤ} {tol : ℚ} {sd : FavoriteSegment}
    (hseg : segments.find? (fun s => s.id == segId) = some sd) {m : MatchRow} :
    m ∈ find_route_parts_matching_segment g segments geoms segId tol ↔
      ∃ a ∈ geoms, geometryMatches g tol sd a = true ∧
        0 < g.interLen a.routeGeog tol sd.geog ∧ matchRowOf g segId tol sd a = m := by
  simp only [find_route_parts_matching_segment, hseg, List.mem_map,
    List.mem_filter, decide_eq_true_eq]
  constructor
  · rintro ⟨a, ⟨⟨ha, hg⟩, hi⟩, hm⟩
    exact ⟨a, ha, hg, hi, hm⟩
  · rintro ⟨a, ha, hg, hi, hm⟩
    exact ⟨a, ⟨⟨ha, hg⟩, hi⟩, hm⟩

/-- Membership characterisation of the by-name matcher output. -/
theorem mem_find_by_name {g : GeoPrim} {segments : List FavoriteSegment}
    {geoms : List ActivityGeometry} {segName : String} {tol : ℚ} {m : MatchRow} :
    m ∈ find_route_parts_matching_segment_by_name g segments geoms segName tol ↔
      ∃ q ∈ segments, q.name = segName ∧ ∃ a ∈ geoms,
        g.dRouteLine a.routeGeog q.geog ≤ tol ∧ matchRowByNameOf g tol q a = m := by
  simp only [find_route_parts_matching_segment_by_name, List.mem_flatMap,
    List.mem_map, List.mem_filter, decide_eq_true_eq, beq_iff_eq]
  constructor
  · rintro ⟨q, ⟨hq, hname⟩, a, ⟨ha, hd⟩, hm⟩
    exact ⟨q, hq, hname, a, ha, hd, hm⟩
  · rintro ⟨q, hq, hname, a, ha, hd, hm⟩
    exact ⟨q, ⟨hq, hname⟩, a, ⟨ha, hd⟩, hm⟩

/-- Every per-vertex distance is dominated by `maxPointDistance`. -/
theorem dPointRoute_le_maxPointDistance (g : GeoPrim) {vs : List ℤ} {v : ℤ}
    (route : ℤ) (hv : v ∈ vs) :
    g.dPointRoute v route ≤ maxPointDistance g vs route := by
  have hmem : g.dPointRoute v route ∈ vs.map (fun w => g.dPointRoute w route) :=
    List.mem_map_of_mem _ hv
  exact le_foldl_max_of_mem hmem 0

/-- Upper bounds of `maxPointDistance`. -/
theorem maxPointDistance_le_iff (g : GeoPrim) (vs : List ℤ) (route : ℤ) (b : ℚ) :
    maxPointDistance g vs route ≤ b ↔
      0 ≤ b ∧ ∀ v ∈ vs, g.dPointRoute v route ≤ b := by
  unfold maxPointDistance
  rw [foldl_max_le_iff]
  simp

/-- C1: for every stored segment (primary-key lookup succeeding, with a
non-empty vertex list as guaranteed at segment creation) and every tolerance,
an activity row appears in the output of `find_route_parts_matching_segment`
if and only if every vertex of the segment polyline is within tolerance of the
activity's route and the computed overlap length is strictly positive; in
particular a route within tolerance of some but not all segment vertices is
not returned. -/
theorem C1_find_matches_membership (g : GeoPrim) (hwf : g.Wf)
    (segments : List FavoriteSegment) (geoms : List ActivityGeometry)
    (segId : ℤ) (tol : ℚ) (sd : FavoriteSegment)
    (hseg : segments.find? (fun s => s.id == segId) = some sd)
    (hvert : sd.geog ≠ [])
    (hnodup : (geoms.map (fun a => a.activityId)).Nodup)
    (a : ActivityGeometry) (ha : a ∈ geoms) :
    (a.activityId ∈ (find_route_parts_matching_segment g segments geoms segId tol).map
        (fun m => m.activityId) ↔
      (∀ v ∈ sd.geog, g.dPointRoute v a.routeGeog ≤ tol) ∧
        0 < g.interLen a.routeGeog tol sd.geog) ∧
    ((∃ v ∈ sd.geog, tol < g.dPointRoute v a.routeGeog) →
      a.activityId ∉ (find_route_parts_matching_segment g segments geoms segId tol).map
        (fun m => m.activityId)) := by
  have hiff : a.activityId ∈ (find_route_parts_matching_segment g segments geoms segId tol).map
        (fun m => m.activityId) ↔
      (∀ v ∈ sd.geog, g.dPointRoute v a.routeGeog ≤ tol) ∧
        0 < g.interLen a.routeGeog tol sd.geog := by
    constructor
    · intro hmem
      rcases List.mem_map.mp hmem with ⟨m, hm, hid⟩
      rcases (mem_find_route_parts hseg).mp hm with ⟨a2, ha2, hgeo, hinter, hrow⟩
      have hid2 : a2.activityId = a.activityId := by
        rw [← hrow] at hid
        simpa [matchRowOf] using hid
      have haa : a2 = a := List.inj_on_of_nodup_map hnodup ha2 ha hid2
      subst haa
      exact ⟨((geometryMatches_iff g tol sd a2).mp hgeo).2.2, hinter⟩
    · rintro ⟨hall, hinter⟩
      rcases List.exists_mem_of_ne_nil sd.geog hvert with ⟨v, hv⟩
      have hdwithin : g.dRouteLine a.routeGeog sd.geog ≤ tol :=
        le_trans (hwf.dRouteLine_le_vertex a.routeGeog sd.geog v hv) (hall v hv)
      have hgeo : geometryMatches g tol sd a = true :=
        (geometryMatches_iff g tol sd a).mpr ⟨hdwithin, hvert, hall⟩
      have hm : matchRowOf g segId tol sd a ∈
          find_route_parts_matching_segment g segments geoms segId tol :=
        (mem_find_route_parts hseg).mpr ⟨a, ha, hgeo, hinter, rfl⟩
      exact List.mem_map.mpr ⟨matchRowOf g segId tol sd a, hm, rfl⟩
  refine ⟨hiff, ?_⟩
  rintro ⟨v, hv, hlt⟩ hmem
  exact absurd ((hiff.mp hmem).1 v hv) (not_le.mpr hlt)

/-- Clamping is the identity on values already in `[0, 100]`. -/
theorem clampPct_eq_self {q : ℚ} (h0 : 0 ≤ q) (h1 : q ≤ 100) : clampPct q = q := by
  unfold clampPct
  rw [min_eq_left h1, max_eq_right h0]

/-- Bounds of the overlap ratio when the segment length is positive and the
overlap is between `0` and the segment length. -/
theorem ratio_bounds {x len : ℚ} (hx : 0 ≤ x) (hxL : x ≤ len) (hL : 0 < len) :
    0 ≤ x / len * 100 ∧ x / len * 100 ≤ 100 := by
  constructor
  · exact mul_nonneg (div_nonneg hx hL.le) (by norm_num)
  · have hdiv : x / len ≤ 1 := (div_le_one hL).mpr hxL
    calc x / len * 100 ≤ 1 * 100 := by
          exact mul_le_mul_of_nonneg_right hdiv (by norm_num)
      _ = 100 := by norm_num

/-- C2 (amended): every row of the primary matcher
`find_route_parts_matching_segment` carries `min_distance_m` equal to the
maximum over all segment vertices of the distance from the vertex to the
route, and that value is at most the tolerance; every row of the by-name
matcher `find_route_parts_matching_segment_by_name` instead carries
`min_distance_m = ST_Distance(route, line)`, the minimum route-to-line
distance, which is also at most the tolerance. -/
theorem C2_min_distance_semantics (g : GeoPrim) (hwf : g.Wf)
    (segments : List FavoriteSegment) (geoms : List ActivityGeometry)
    (segId : ℤ) (segName : String) (tol : ℚ) (sd : FavoriteSegment)
    (hseg : segments.find? (fun s => s.id == segId) = some sd) :
    (∀ m ∈ find_route_parts_matching_segment g segments geoms segId tol,
       (∃ a ∈ geoms, m.activityId = a.activityId ∧
          m.minDistanceM = maxPointDistance g sd.geog a.routeGeog) ∧
       m.minDistanceM ≤ tol) ∧
    (∀ m ∈ find_route_parts_matching_segment_by_name g segments geoms segName tol,
       (∃ q ∈ segments, ∃ a ∈ geoms, m.segmentId = q.id ∧ m.activityId = a.activityId ∧
          m.minDistanceM = g.dRouteLine a.routeGeog q.geog) ∧
       m.minDistanceM ≤ tol) := by
  constructor
  · intro m hm
    rcases (mem_find_route_parts hseg).mp hm with ⟨a, ha, hgeo, _, hrow⟩
    rcases (geometryMatches_iff g tol sd a).mp hgeo with ⟨_, hvert, hall⟩
    rcases List.exists_mem_of_ne_nil sd.geog hvert with ⟨v, hv⟩
    have htol : 0 ≤ tol := le_trans (hwf.dPointRoute_nonneg v a.routeGeog) (hall v hv)
    subst hrow
    refine ⟨⟨a, ha, ?_, ?_⟩, ?_⟩
    · simp [matchRowOf]
    · simp [matchRowOf]
    · show maxPointDistance g sd.geog a.routeGeog ≤ tol
      exact (maxPointDistance_le_iff g sd.geog a.routeGeog tol).mpr ⟨htol, hall⟩
  · intro m hm
    rcases mem_find_by_name.mp hm with ⟨q, hq, _, a, ha, hd, hrow⟩
    subst hrow
    refine ⟨⟨q, hq, a, ha, ?_, ?_, ?_⟩, ?_⟩
    · simp [matchRowByNameOf]
    · simp [matchRowByNameOf]
    · simp [matchRowByNameOf]
    · simpa [matchRowByNameOf] using hd

/-- C3: the overlap percentage of every row of the primary matcher, of every
row of the by-name matcher, and of every value stored for a primary-matcher
row by `CacheSegmentActivityMatches` equals
`clamp(overlap_length_m / segment_length * 100, 0, 100)` and in particular
lies in `[0, 100]`, for every tolerance. -/
theorem C3_overlap_percentage_clamped (g : GeoPrim) (hwf : g.Wf)
    (segments : List FavoriteSegment) (geoms : List ActivityGeometry)
    (segId : ℤ) (segName : String) (tol : ℚ) (sd : FavoriteSegment)
    (hseg : segments.find? (fun s => s.id == segId) = some sd) :
    (∀ m ∈ find_route_parts_matching_segment g segments geoms segId tol,
       m.overlapPercentage = clampPct (m.overlapLengthM / g.segLen sd.geog * 100) ∧
       0 ≤ m.overlapPercentage ∧ m.overlapPercentage ≤ 100) ∧
    (∀ m ∈ find_route_parts_matching_segment_by_name g segments geoms segName tol,
       (∃ q ∈ segments, m.segmentId = q.id ∧
          m.overlapPercentage = clampPct (m.overlapLengthM / g.segLen q.geog * 100)) ∧
       0 ≤ m.overlapPercentage ∧ m.overlapPercentage ≤ 100) ∧
    (∀ m ∈ find_route_parts_matching_segment g segments geoms segId tol,
       cacheOverlapPct m (segLenOf g segments segId) =
         clampPct (m.overlapLengthM / g.segLen sd.geog * 100) ∧
       0 ≤ cacheOverlapPct m (segLenOf g segments segId) ∧
       cacheOverlapPct m (segLenOf g segments segId) ≤ 100) := by
  have hprimary : ∀ m ∈ find_route_parts_matching_segment g segments geoms segId tol,
      m.overlapPercentage = clampPct (m.overlapLengthM / g.segLen sd.geog * 100) ∧
      0 ≤ m.overlapPercentage ∧ m.overlapPercentage ≤ 100 ∧
      0 < m.overlapLengthM ∧ 0 < g.segLen sd.geog ∧
      m.overlapLengthM ≤ g.segLen sd.geog := by
    intro m hm
    rcases (mem_find_route_parts hseg).mp hm with ⟨a, ha, _, hinter, hrow⟩
    have hle : g.interLen a.routeGeog tol sd.geog ≤ g.segLen sd.geog :=
      hwf.interLen_le_segLen a.routeGeog tol sd.geog
    have hpos : 0 < g.segLen sd.geog := lt_of_lt_of_le hinter hle
    rcases ratio_bounds (le_of_lt hinter) hle hpos with ⟨hr0, hr1⟩
    subst hrow
    simp only [matchRowOf, if_pos hpos]
    refine ⟨?_, ?_, ?_, hinter, hpos, hle⟩
    · rw [min_eq_left hr1, clampPct_eq_self hr0 hr1]
    · rw [min_eq_left hr1]
      exact hr0
    · exact min_le_right _ _
  refine ⟨fun m hm => ⟨(hprimary m hm).1, (hprimary m hm).2.1, (hprimary m hm).2.2.1⟩, ?_, ?_⟩
  · intro m hm
    rcases mem_find_by_name.mp hm with ⟨q, hq, _, a, ha, _, hrow⟩
    have h0 : 0 ≤ g.interLen a.routeGeog tol q.geog :=
      hwf.interLen_nonneg a.routeGeog tol q.geog
    have hle : g.interLen a.routeGeog tol q.geog ≤ g.segLen q.geog :=
      hwf.interLen_le_segLen a.routeGeog tol q.geog
    subst hrow
    by_cases hpos : 0 < g.segLen q.geog
    · rcases ratio_bounds h0 hle hpos with ⟨hr0, hr1⟩
      simp only [matchRowByNameOf, if_pos hpos]
      exact ⟨⟨q, hq, rfl, (clampPct_eq_self hr0 hr1).symm⟩, hr0, hr1⟩
    · have hzero : g.interLen a.routeGeog tol q.geog = 0 :=
        le_antisymm (le_trans hle (not_lt.mp hpos)) h0
      simp only [matchRowByNameOf, if_neg hpos]
      refine ⟨⟨q, hq, rfl, ?_⟩, le_refl 0, by norm_num⟩
      simp [hzero, clampPct]
  · intro m hm
    rcases hprimary m hm with ⟨hclamp, h0, h100, hoverlap, hpos, hle⟩
    have hlen : segLenOf g segments segId = g.segLen sd.geog := by
      simp [segLenOf, hseg]
    have hcond : ¬(m.overlapPercentage = 0 ∧ 0 < m.overlapLengthM ∧
        0 < segLenOf g segments segId) := by
      rintro ⟨hzero, _, _⟩
      rcases ratio_bounds (le_of_lt hoverlap) hle hpos with ⟨_, hr1⟩
      have hrpos : 0 < m.overlapLengthM / g.segLen sd.geog * 100 :=
        mul_pos (div_pos hoverlap hpos) (by norm_num)
      rw [hclamp, clampPct_eq_self (le_of_lt hrpos) hr1] at hzero
      exact absurd hzero (ne_of_gt hrpos)
    unfold cacheOverlapPct
    rw [if_neg hcond]
    exact ⟨hclamp, h0, h100⟩

/-- Unfolding of the shared sample filter. -/
theorem sampleFilter_iff (g : GeoPrim) (sd : FavoriteSegment)
    (activityId athleteId : ℤ) (tol : ℚ) (p : PointSample) :
    sampleFilter g sd activityId athleteId tol p = true ↔
      p.activityId = activityId ∧ p.athleteId = athleteId ∧
        g.dPointLine p.location sd.geog ≤ tol := by
  simp [sampleFilter, and_assoc]

/-- The resolver returns `none` exactly when no sample row passes the
filter. -/
theorem find_indices_eq_none_iff (g : GeoPrim) (segments : List FavoriteSegment)
    (samples : List PointSample) (segId activityId athleteId : ℤ) (tol : ℚ)
    (sd : FavoriteSegment)
    (hseg : segments.find? (fun s => s.id == segId) = some sd) :
    (find_segment_point_indices g segments samples segId activityId athleteId tol = none ↔
      samples.filter (sampleFilter g sd activityId athleteId tol) = []) := by
  unfold find_segment_point_indices
  rw [hseg]
  cases hfil : (samples.filter (sampleFilter g sd activityId athleteId tol)).map
      (fun p => p.pointIndex) with
  | nil =>
    simp only [hfil]
    simpa using List.map_eq_nil_iff.mp hfil
  | cons i is =>
    simp only [hfil]
    constructor
    · intro h
      cases h
    · intro h
      rw [h] at hfil
      cases hfil

/-- When the resolver returns a pair, the first component is the smallest and
the second the largest index among the filtered samples, and both are attained. -/
theorem find_indices_bounds (g : GeoPrim) (segments : List FavoriteSegment)
    (samples : List PointSample) (segId activityId athleteId : ℤ) (tol : ℚ)
    (sd : FavoriteSegment)
    (hseg : segments.find? (fun s => s.id == segId) = some sd) {s e : ℤ}
    (hres : find_segment_point_indices g segments samples segId activityId athleteId tol
      = some (s, e)) :
    s ∈ (samples.filter (sampleFilter g sd activityId athleteId tol)).map
        (fun p => p.pointIndex) ∧
    e ∈ (samples.filter (sampleFilter g sd activityId athleteId tol)).map
        (fun p => p.pointIndex) ∧
    ∀ x ∈ (samples.filter (sampleFilter g sd activityId athleteId tol)).map
        (fun p => p.pointIndex), s ≤ x ∧ x ≤ e := by
  unfold find_segment_point_indices at hres
  rw [hseg] at hres
  cases hfil : (samples.filter (sampleFilter g sd activityId athleteId tol)).map
      (fun p => p.pointIndex) with
  | nil =>
    simp [hfil] at hres
  | cons i is =>
    simp only [hfil, Option.some.injEq, Prod.mk.injEq] at hres
    rcases hres with ⟨hs, he⟩
    subst hs
    subst he
    refine ⟨foldl_min_mem is i, foldl_max_mem is i, ?_⟩
    intro x hx
    rcases List.mem_cons.mp hx with hx1 | hx1
    · subst hx1
      exact ⟨foldl_min_le_init is x, init_le_foldl_max is x⟩
    · exact ⟨foldl_min_le_of_mem hx1 i, le_foldl_max_of_mem hx1 i⟩

/-- C4: for every stored segment, `find_segment_point_indices` returns
`start_index` equal to the smallest point index of the activity's samples
whose location is within tolerance of the segment polyline and `end_index`
equal to the largest such index, so `start_index ≤ end_index` whenever a range
is returned; when no point sample is within tolerance it returns the distinct
no-range signal (the SQL `NULL` aggregates, on which the Go caller's scan
errors out) instead of a range. -/
theorem C4_resolve_range (g : GeoPrim) (segments : List FavoriteSegment)
    (samples : List PointSample) (segId activityId athleteId : ℤ) (tol : ℚ)
    (sd : FavoriteSegment)
    (hseg : segments.find? (fun s => s.id == segId) = some sd) :
    (∀ s e, find_segment_point_indices g segments samples segId activityId athleteId tol
        = some (s, e) →
      (∃ p ∈ samples, (p.activityId = activityId ∧ p.athleteId = athleteId ∧
          g.dPointLine p.location sd.geog ≤ tol) ∧ p.pointIndex = s) ∧
      (∃ p ∈ samples, (p.activityId = activityId ∧ p.athleteId = athleteId ∧
          g.dPointLine p.location sd.geog ≤ tol) ∧ p.pointIndex = e) ∧
      (∀ p ∈ samples, p.activityId = activityId → p.athleteId = athleteId →
        g.dPointLine p.location sd.geog ≤ tol → s ≤ p.pointIndex ∧ p.pointIndex ≤ e) ∧
      s ≤ e) ∧
    (find_segment_point_indices g segments samples segId activityId athleteId tol = none ↔
      ¬∃ p ∈ samples, p.activityId = activityId ∧ p.athleteId = athleteId ∧
        g.dPointLine p.location sd.geog ≤ tol) := by
  constructor
  · intro s e hres
    rcases find_indices_bounds g segments samples segId activityId athleteId tol sd hseg hres
      with ⟨hsmem, hemem, hbound⟩
    rcases List.mem_map.mp hsmem with ⟨ps, hpsf, hpss⟩
    rcases List.mem_map.mp hemem with ⟨pe, hpef, hpee⟩
    rcases List.mem_filter.mp hpsf with ⟨hpsmem, hpsfil⟩
    rcases List.mem_filter.mp hpef with ⟨hpemem, hpefil⟩
    refine ⟨⟨ps, hpsmem, (sampleFilter_iff g sd activityId athleteId tol ps).mp hpsfil, hpss⟩,
      ⟨pe, hpemem, (sampleFilter_iff g sd activityId athleteId tol pe).mp hpefil, hpee⟩, ?_, ?_⟩
    · intro p hp h1 h2 h3
      have hpfil : sampleFilter g sd activityId athleteId tol p = true :=
        (sampleFilter_iff g sd activityId athleteId tol p).mpr ⟨h1, h2, h3⟩
      exact hbound p.pointIndex
        (List.mem_map.mpr ⟨p, List.mem_filter.mpr ⟨hp, hpfil⟩, rfl⟩)
    · have hse := hbound s hsmem
      have hee := hbound e hemem
      exact le_trans hse.1 hse.2
  · rw [find_indices_eq_none_iff g segments samples segId activityId athleteId tol sd hseg]
    rw [List.filter_eq_nil_iff]
    constructor
    · intro h
      rintro ⟨p, hp, hcond⟩
      exact h p hp ((sampleFilter_iff g sd activityId athleteId tol p).mpr hcond)
    · intro h p hp hfil
      exact h ⟨p, hp, (sampleFilter_iff g sd activityId athleteId tol p).mp hfil⟩

/-- Formalisation of the C5 claim wording, not of the source: segment metrics
computed over exactly the samples of the route whose index lies in the
contiguous range `[s, e]`, including in-range samples that are not within
tolerance of the segment polyline. Used to compare the claimed behaviour with
`get_activity_segment_metrics`. -/
def metricsOverIndexRange_claim (g : GeoPrim) (samples : List PointSample)
    (activityId athleteId s e : ℤ) : SegmentMetricsOut :=
  let pts := List.insertionSort idxLe (samples.filter (fun p =>
    p.activityId == activityId && p.athleteId == athleteId
      && decide (s ≤ p.pointIndex) && decide (p.pointIndex ≤ e)))
  { avgHr := (avgOverPresent (fun p => p.heartrate) pts).getD 0
    avgSpeed := (avgOverPresent (fun p => p.speed) pts).getD 0
    distanceM := if pts.isEmpty then 0 else ((lagPairs pts).map (distTerm g)).sum
    elevationGainM := if pts.isEmpty then 0 else ((lagPairs pts).map elevTerm).sum }

/-- C5 (amended): the metrics of `get_activity_segment_metrics` are computed
over exactly the within-tolerance samples of the route. All of those samples
lie inside `[start_index, end_index]` of the resolved range, so samples
outside the range never contribute (restricting the route to the range does
not change the output), but in-range samples that are not within tolerance are
excluded from the aggregation rather than included. -/
theorem C5_metrics_over_within_tolerance_samples (g : GeoPrim)
    (segments : List FavoriteSegment) (samples : List PointSample)
    (segId activityId athleteId : ℤ) (tol : ℚ) (sd : FavoriteSegment)
    (hseg : segments.find? (fun s => s.id == segId) = some sd)
    (s e : ℤ)
    (hres : find_segment_point_indices g segments samples segId activityId athleteId tol
      = some (s, e)) :
    (∀ p ∈ samples, sampleFilter g sd activityId athleteId tol p = true →
       s ≤ p.pointIndex ∧ p.pointIndex ≤ e) ∧
    get_activity_segment_metrics g segments samples segId activityId athleteId tol =
      get_activity_segment_metrics g segments
        (samples.filter (fun p =>
          !(p.activityId == activityId && p.athleteId == athleteId)
            || (decide (s ≤ p.pointIndex) && decide (p.pointIndex ≤ e))))
        segId activityId athleteId tol := by
  have hbounds := find_indices_bounds g segments samples segId activityId athleteId tol sd
    hseg hres
  have hrange : ∀ p ∈ samples, sampleFilter g sd activityId athleteId tol p = true →
      s ≤ p.pointIndex ∧ p.pointIndex ≤ e := by
    intro p hp hfil
    exact hbounds.2.2 p.pointIndex
      (List.mem_map.mpr ⟨p, List.mem_filter.mpr ⟨hp, hfil⟩, rfl⟩)
  refine ⟨hrange, ?_⟩
  have hfil : (samples.filter (fun p =>
      !(p.activityId == activityId && p.athleteId == athleteId)
        || (decide (s ≤ p.pointIndex) && decide (p.pointIndex ≤ e)))).filter
      (sampleFilter g sd activityId athleteId tol)
      = samples.filter (sampleFilter g sd activityId athleteId tol) := by
    rw [List.filter_filter]
    apply List.filter_congr
    intro p hp
    cases hF : sampleFilter g sd activityId athleteId tol p with
    | false => simp
    | true =>
      rcases (sampleFilter_iff g sd activityId athleteId tol p).mp hF with ⟨h1, h2, _⟩
      rcases hrange p hp hF with ⟨hls, hle⟩
      simp [h1, h2, hls, hle]
  have hpts : activitySegmentPoints g sd (samples.filter (fun p =>
      !(p.activityId == activityId && p.athleteId == athleteId)
        || (decide (s ≤ p.pointIndex) && decide (p.pointIndex ≤ e))))
      activityId athleteId tol
      = activitySegmentPoints g sd samples activityId athleteId tol := by
    unfold activitySegmentPoints
    rw [hfil]
  unfold get_activity_segment_metrics segment_metrics
  rw [hseg]
  dsimp only
  rw [hpts]

/-- C6 (amended): inside the aggregation of `get_activity_segment_metrics`,
`avg_hr` (and `avg_speed`) is the arithmetic mean over only the aggregated
samples that have the field present — a missing field is excluded from both
numerator and denominator, never treated as zero — and the aggregate is absent
exactly when no aggregated sample has the field; but the function's output
coalesces an absent aggregate to `0`, so callers receive zero, not absence. -/
theorem C6_avg_over_present_samples (g : GeoPrim)
    (segments : List FavoriteSegment) (samples : List PointSample)
    (segId activityId athleteId : ℤ) (tol : ℚ) (sd : FavoriteSegment)
    (hseg : segments.find? (fun s => s.id == segId) = some sd) :
    ((segment_metrics g sd samples activityId athleteId tol).avgHr = none ↔
      ∀ p ∈ activitySegmentPoints g sd samples activityId athleteId tol,
        p.heartrate = none) ∧
    (∀ q, (segment_metrics g sd samples activityId athleteId tol).avgHr = some q →
      q = ((activitySegmentPoints g sd samples activityId athleteId tol).filterMap
            (fun p => p.heartrate)).sum /
          ((activitySegmentPoints g sd samples activityId athleteId tol).filterMap
            (fun p => p.heartrate)).length) ∧
    ((segment_metrics g sd samples activityId athleteId tol).avgSpeed = none ↔
      ∀ p ∈ activitySegmentPoints g sd samples activityId athleteId tol,
        p.speed = none) ∧
    (∀ q, (segment_metrics g sd samples activityId athleteId tol).avgSpeed = some q →
      q = ((activitySegmentPoints g sd samples activityId athleteId tol).filterMap
            (fun p => p.speed)).sum /
          ((activitySegmentPoints g sd samples activityId athleteId tol).filterMap
            (fun p => p.speed)).length) ∧
    (get_activity_segment_metrics g segments samples segId activityId athleteId tol).avgHr
      = ((segment_metrics g sd samples activityId athleteId tol).avgHr).getD 0 ∧
    (get_activity_segment_metrics g segments samples segId activityId athleteId tol).avgSpeed
      = ((segment_metrics g sd samples activityId athleteId tol).avgSpeed).getD 0 := by
  have havg : ∀ f : PointSample → Option ℚ, ∀ l : List PointSample,
      (avgOverPresent f l = none ↔ ∀ p ∈ l, f p = none) ∧
      (∀ q, avgOverPresent f l = some q →
        q = (l.filterMap f).sum / (l.filterMap f).length) := by
    intro f l
    unfold avgOverPresent
    cases hfm : l.filterMap f with
    | nil =>
      constructor
      · simp only [true_iff]
        intro p hp
        cases hf : f p with
        | none => rfl
        | some v =>
          have : v ∈ l.filterMap f := List.mem_filterMap.mpr ⟨p, hp, hf⟩
          rw [hfm] at this
          cases this
      · intro q hq
        cases hq
    | cons v vs =>
      constructor
      · constructor
        · intro h
          cases h
        · intro hall
          have : v ∈ l.filterMap f := by
            rw [hfm]
            exact List.mem_cons_self v vs
          rcases List.mem_filterMap.mp this with ⟨p, hp, hf⟩
          rw [hall p hp] at hf
          cases hf
      · intro q hq
        have hq2 : some ((v :: vs).sum / ((v :: vs).length : ℚ)) = some q := hq
        injection hq2 with hq3
        exact hq3.symm
  have hget : (get_activity_segment_metrics g segments samples segId activityId athleteId tol)
      = ⟨((segment_metrics g sd samples activityId athleteId tol).avgHr).getD 0,
         ((segment_metrics g sd samples activityId athleteId tol).avgSpeed).getD 0,
         ((segment_metrics g sd samples activityId athleteId tol).distanceM).getD 0,
         ((segment_metrics g sd samples activityId athleteId tol).elevationGain).getD 0⟩ := by
    unfold get_activity_segment_metrics
    rw [hseg]
  refine ⟨(havg _ _).1, (havg _ _).2, (havg _ _).1, (havg _ _).2, ?_, ?_⟩
  · rw [hget]
  · rw [hget]

/-- After an upsert, looking up the upserted key finds a row carrying the new
match fields and the fresh timestamp. -/
theorem find?_upsertMatchRow_self (segId : ℤ) (tol now pct : ℚ) (m : MatchRow)
    (st : List CacheRow) :
    ∃ r2, (upsertMatchRow segId tol now pct m st).find? (sameKey segId m.activityId tol)
        = some r2 ∧
      r2.minDistanceM = m.minDistanceM ∧ r2.overlapLengthM = m.overlapLengthM ∧
      r2.overlapPercentage = pct ∧ r2.cachedAt = now := by
  unfold upsertMatchRow
  by_cases hany : st.any (sameKey segId m.activityId tol) = true
  · rw [if_pos hany]
    have hsome : (st.find? (sameKey segId m.activityId tol)).isSome = true := by
      rw [List.find?_isSome]
      exact List.any_eq_true.mp hany
    rcases Option.isSome_iff_exists.mp hsome with ⟨r0, hfind⟩
    have hkey0 : sameKey segId m.activityId tol r0 = true := List.find?_some hfind
    rw [List.find?_map]
    have hcomp : (sameKey segId m.activityId tol ∘ fun r =>
        if sameKey segId m.activityId tol r then updatedCacheRow now pct m r else r)
        = sameKey segId m.activityId tol := by
      funext r
      by_cases h : sameKey segId m.activityId tol r = true
      · simp only [Function.comp_apply, if_pos h]
        rfl
      · simp only [Function.comp_apply, if_neg h]
    rw [hcomp, hfind]
    refine ⟨updatedCacheRow now pct m r0, ?_, rfl, rfl, rfl, rfl⟩
    simp [if_pos hkey0]
  · rw [if_neg hany]
    have hnone : st.find? (sameKey segId m.activityId tol) = none := by
      rw [List.find?_eq_none]
      intro x hx hpx
      exact hany (List.any_eq_true.mpr ⟨x, hx, hpx⟩)
    have hkey : sameKey segId m.activityId tol (freshCacheRow segId tol now pct m)
        = true := by
      simp [sameKey, freshCacheRow]
    refine ⟨freshCacheRow segId tol now pct m, ?_, rfl, rfl, rfl, rfl⟩
    rw [List.find?_append, hnone]
    simp [List.find?, hkey]

/-- An upsert leaves the lookup of every other activity key unchanged. -/
theorem find?_upsertMatchRow_ne (segId : ℤ) (tol now pct : ℚ) (m : MatchRow)
    (st : List CacheRow) (actId : ℤ) (hne : actId ≠ m.activityId) :
    (upsertMatchRow segId tol now pct m st).find? (sameKey segId actId tol) =
      st.find? (sameKey segId actId tol) := by
  unfold upsertMatchRow
  by_cases hany : st.any (sameKey segId m.activityId tol) = true
  · rw [if_pos hany, List.find?_map]
    have hcomp : (sameKey segId actId tol ∘ fun r =>
        if sameKey segId m.activityId tol r then updatedCacheRow now pct m r else r)
        = sameKey segId actId tol := by
      funext r
      by_cases h : sameKey segId m.activityId tol r = true
      · simp only [Function.comp_apply, if_pos h]
        rfl
      · simp only [Function.comp_apply, if_neg h]
    rw [hcomp]
    cases hfind : st.find? (sameKey segId actId tol) with
    | none => rfl
    | some r0 =>
      have hkey : sameKey segId actId tol r0 = true := List.find?_some hfind
      simp only [sameKey, Bool.and_eq_true, beq_iff_eq] at hkey
      have hact : r0.activityId ≠ m.activityId := by
        rw [hkey.1.2]
        exact hne
      have hkeym : sameKey segId m.activityId tol r0 = false := by
        simp [sameKey, hact]
      simp [Option.map, hkeym]
  · rw [if_neg hany, List.find?_append]
    have hactnew : m.activityId ≠ actId := fun h => hne h.symm
    have hkeynew : sameKey segId actId tol (freshCacheRow segId tol now pct m)
        = false := by
      simp [sameKey, freshCacheRow, hactnew]
    rw [List.find?]
    simp only [hkeynew]
    cases st.find? (sameKey segId actId tol) <;> rfl

/-- Folding upserts for matches of other activities leaves a key's lookup
unchanged. -/
theorem find?_foldl_upsert_frame (segId : ℤ) (tol now : ℚ) (pctOf : MatchRow → ℚ)
    (ms : List MatchRow) (st : List CacheRow) (actId : ℤ)
    (hnot : ∀ m ∈ ms, actId ≠ m.activityId) :
    (ms.foldl (fun acc m => upsertMatchRow segId tol now (pctOf m) m acc) st).find?
        (sameKey segId actId tol) = st.find? (sameKey segId actId tol) := by
  induction ms generalizing st with
  | nil => rfl
  | cons m0 t ih =>
    rw [List.foldl_cons]
    rw [ih _ (fun x hx => hnot x (List.mem_cons_of_mem m0 hx))]
    exact find?_upsertMatchRow_ne segId tol now (pctOf m0) m0 st actId
      (hnot m0 (List.mem_cons_self m0 t))

/-- After folding the upserts of a duplicate-free match list, every match's
key looks up a row with that match's fields and the fresh timestamp. -/
theorem find?_foldl_upsert_mem (segId : ℤ) (tol now : ℚ) (pctOf : MatchRow → ℚ)
    (ms : List MatchRow) (st : List CacheRow)
    (hnodup : (ms.map (fun m => m.activityId)).Nodup) :
    ∀ m ∈ ms, ∃ r2,
      (ms.foldl (fun acc m2 => upsertMatchRow segId tol now (pctOf m2) m2 acc) st).find?
          (sameKey segId m.activityId tol) = some r2 ∧
        r2.minDistanceM = m.minDistanceM ∧ r2.overlapLengthM = m.overlapLengthM ∧
        r2.overlapPercentage = pctOf m ∧ r2.cachedAt = now := by
  revert hnodup
  induction ms generalizing st with
  | nil =>
    intro _ m hm
    cases hm
  | cons m0 t ih =>
    intro hnodup m hm
    have hnd : (∀ x ∈ t, ¬x.activityId = m0.activityId) ∧
        (t.map (fun m2 => m2.activityId)).Nodup := by
      simpa using hnodup
    rw [List.foldl_cons]
    rcases List.mem_cons.mp hm with h | h
    · subst h
      have hne : ∀ x ∈ t, m.activityId ≠ x.activityId := by
        intro x hx heq
        exact hnd.1 x hx heq.symm
      rw [find?_foldl_upsert_frame segId tol now pctOf t _ m.activityId hne]
      exact find?_upsertMatchRow_self segId tol now (pctOf m) m st
    · exact ih _ hnd.2 m h

/-- The newest timestamp of a non-empty row group is attained by a row of the
group. -/
theorem newestCachedAt_mem {l : List CacheRow} (h : l ≠ []) :
    ∃ r ∈ l, r.cachedAt = newestCachedAt l := by
  cases l with
  | nil => exact absurd rfl h
  | cons r0 rs =>
    have hm := foldl_max_mem (rs.map (fun x => x.cachedAt)) r0.cachedAt
    rcases List.mem_cons.mp hm with h1 | h1
    · exact ⟨r0, List.mem_cons_self _ _, h1.symm⟩
    · rcases List.mem_map.mp h1 with ⟨r, hr, heq⟩
      exact ⟨r, List.mem_cons_of_mem _ hr, heq⟩

/-- Every row's timestamp is dominated by the newest of its group. -/
theorem le_newestCachedAt {l : List CacheRow} {r : CacheRow} (hr : r ∈ l) :
    r.cachedAt ≤ newestCachedAt l := by
  cases l with
  | nil => cases hr
  | cons r0 rs =>
    rcases List.mem_cons.mp hr with h1 | h1
    · rw [h1]
      exact init_le_foldl_max _ _
    · exact le_foldl_max_of_mem (List.mem_map_of_mem _ h1) _

/-- Membership in the cached rows of one `(segment_id, tolerance)` key. -/
theorem mem_cachedMatchesFor {st : List CacheRow} {segId : ℤ} {tol : ℚ}
    {r : CacheRow} :
    r ∈ cachedMatchesFor st segId tol ↔
      r ∈ st ∧ r.segmentId = segId ∧ r.toleranceMeters = tol := by
  simp [cachedMatchesFor, List.mem_filter, and_assoc]

/-- The ids of the primary matcher's rows inherit distinctness from
`activity_geometries`' primary key. -/
theorem find_route_parts_ids_nodup (g : GeoPrim) (segments : List FavoriteSegment)
    (geoms : List ActivityGeometry) (segId : ℤ) (tol : ℚ)
    (hnodup : (geoms.map (fun a => a.activityId)).Nodup) :
    ((find_route_parts_matching_segment g segments geoms segId tol).map
      (fun m => m.activityId)).Nodup := by
  unfold find_route_parts_matching_segment
  cases hseg : segments.find? (fun s => s.id == segId) with
  | none => simp
  | some sd =>
    rw [List.map_map]
    have heq : ((fun m : MatchRow => m.activityId) ∘ matchRowOf g segId tol sd)
        = fun a : ActivityGeometry => a.activityId := rfl
    rw [heq]
    have hsub : ((geoms.filter (geometryMatches g tol sd)).filter
        (fun a => decide (0 < g.interLen a.routeGeog tol sd.geog))).Sublist geoms :=
      List.Sublist.trans (List.filter_sublist _) (List.filter_sublist _)
    exact (hsub.map (fun a : ActivityGeometry => a.activityId)).nodup hnodup

/-- The cache-read decision of `GetActivitiesForSegment`. -/
theorem usedCache_iff (g : GeoPrim) (segments : List FavoriteSegment)
    (geoms : List ActivityGeometry) (st : List CacheRow) (now : ℚ)
    (segId : ℤ) (tol : ℚ) (force : Bool) :
    (getActivitiesForSegment g segments geoms st now segId tol force).usedCache = true ↔
      (force = false ∧ cachedMatchesFor st segId tol ≠ [] ∧
        now - newestCachedAt (cachedMatchesFor st segId tol) < cacheTTL) := by
  have hemp : ∀ l : List CacheRow, l.isEmpty = false ↔ l ≠ [] := by
    intro l
    cases l <;> simp
  unfold getActivitiesForSegment
  by_cases hcond : (!force && !(cachedMatchesFor st segId tol).isEmpty
      && decide (now - newestCachedAt (cachedMatchesFor st segId tol) < cacheTTL)) = true
  · rw [if_pos hcond]
    simp only [Bool.and_eq_true, Bool.not_eq_true', decide_eq_true_eq] at hcond
    simp only [true_iff]
    exact ⟨hcond.1.1, (hemp _).mp hcond.1.2, hcond.2⟩
  · rw [if_neg hcond]
    simp only [Bool.and_eq_true, Bool.not_eq_true', decide_eq_true_eq] at hcond
    constructor
    · intro h
      cases h
    · rintro ⟨h1, h2, h3⟩
      exact absurd ⟨⟨h1, (hemp _).mpr h2⟩, h3⟩ hcond

/-- The refresh path of `GetActivitiesForSegment`. -/
theorem getActivitiesForSegment_refresh (g : GeoPrim)
    (segments : List FavoriteSegment) (geoms : List ActivityGeometry)
    (st : List CacheRow) (now : ℚ) (segId : ℤ) (tol : ℚ) (force : Bool)
    (hused : (getActivitiesForSegment g segments geoms st now segId tol force).usedCache
      = false) :
    getActivitiesForSegment g segments geoms st now segId tol force =
      ⟨false, find_route_parts_matching_segment g segments geoms segId tol,
        cacheSegmentActivityMatches g segments st segId tol now
          (find_route_parts_matching_segment g segments geoms segId tol)⟩ := by
  unfold getActivitiesForSegment at hused ⊢
  by_cases hcond : (!force && !(cachedMatchesFor st segId tol).isEmpty
      && decide (now - newestCachedAt (cachedMatchesFor st segId tol) < cacheTTL)) = true
  · rw [if_pos hcond] at hused
    cases hused
  · rw [if_neg hcond]

/-- C7 (amended): the cached list is used if and only if `force_refresh` is
false and the newest `cached_at` among the cached entries of
`(segment_id, tolerance_meters)` exists and is less than one hour old. On the
refresh path the full matcher re-runs and each resulting entry is upserted,
overwriting the cached row with the same
`(segment_id, activity_id, tolerance)` key — or inserting a new one — with a
fresh timestamp; rows of the key belonging to activities not in the new result
are left in place rather than removed. -/
theorem C7_cache_freshness_and_refresh (g : GeoPrim)
    (segments : List FavoriteSegment) (geoms : List ActivityGeometry)
    (st : List CacheRow) (now : ℚ) (segId : ℤ) (tol : ℚ) (force : Bool)
    (hnodup : (geoms.map (fun a => a.activityId)).Nodup) :
    ((getActivitiesForSegment g segments geoms st now segId tol force).usedCache = true ↔
      (force = false ∧ ∃ r ∈ st, r.segmentId = segId ∧ r.toleranceMeters = tol ∧
        (∀ r2 ∈ st, r2.segmentId = segId → r2.toleranceMeters = tol →
          r2.cachedAt ≤ r.cachedAt) ∧
        now - r.cachedAt < cacheTTL)) ∧
    ((getActivitiesForSegment g segments geoms st now segId tol force).usedCache = false →
      (getActivitiesForSegment g segments geoms st now segId tol force).matchList =
        find_route_parts_matching_segment g segments geoms segId tol ∧
      ∀ m ∈ (getActivitiesForSegment g segments geoms st now segId tol force).matchList,
        ∃ r2, ((getActivitiesForSegment g segments geoms st now segId tol force).cache.find?
            (sameKey segId m.activityId tol)) = some r2 ∧
          r2.minDistanceM = m.minDistanceM ∧ r2.overlapLengthM = m.overlapLengthM ∧
          r2.overlapPercentage = cacheOverlapPct m (segLenOf g segments segId) ∧
          r2.cachedAt = now) := by
  constructor
  · rw [usedCache_iff]
    constructor
    · rintro ⟨h1, h2, h3⟩
      refine ⟨h1, ?_⟩
      rcases newestCachedAt_mem h2 with ⟨r, hr, hreq⟩
      rcases mem_cachedMatchesFor.mp hr with ⟨hrst, hrseg, hrtol⟩
      refine ⟨r, hrst, hrseg, hrtol, ?_, ?_⟩
      · intro r2 hr2 hseg2 htol2
        rw [hreq]
        exact le_newestCachedAt (mem_cachedMatchesFor.mpr ⟨hr2, hseg2, htol2⟩)
      · rw [hreq]
        exact h3
    · rintro ⟨h1, r, hrst, hrseg, hrtol, hmax, hfresh⟩
      have hrmem : r ∈ cachedMatchesFor st segId tol :=
        mem_cachedMatchesFor.mpr ⟨hrst, hrseg, hrtol⟩
      have hne : cachedMatchesFor st segId tol ≠ [] := by
        intro hnil
        rw [hnil] at hrmem
        cases hrmem
      refine ⟨h1, hne, ?_⟩
      have h2le : r.cachedAt ≤ newestCachedAt (cachedMatchesFor st segId tol) :=
        le_newestCachedAt hrmem
      rcases newestCachedAt_mem hne with ⟨r3, hr3, hr3eq⟩
      rcases mem_cachedMatchesFor.mp hr3 with ⟨hr3st, hr3seg, hr3tol⟩
      have h1le : newestCachedAt (cachedMatchesFor st segId tol) ≤ r.cachedAt := by
        rw [← hr3eq]
        exact hmax r3 hr3st hr3seg hr3tol
      linarith
  · intro hused
    rw [getActivitiesForSegment_refresh g segments geoms st now segId tol force hused]
    refine ⟨rfl, ?_⟩
    intro m hm
    have hmsne : (find_route_parts_matching_segment g segments geoms segId tol).isEmpty
        = false := by
      cases hl : find_route_parts_matching_segment g segments geoms segId tol with
      | nil =>
        rw [hl] at hm
        cases hm
      | cons x xs => rfl
    show ∃ r2, ((cacheSegmentActivityMatches g segments st segId tol now
        (find_route_parts_matching_segment g segments geoms segId tol)).find?
        (sameKey segId m.activityId tol)) = some r2 ∧ _
    unfold cacheSegmentActivityMatches
    rw [hmsne]
    simp only [Bool.false_eq_true, if_false]
    exact find?_foldl_upsert_mem segId tol now
      (fun m2 => cacheOverlapPct m2 (segLenOf g segments segId))
      (find_route_parts_matching_segment g segments geoms segId tol) st
      (find_route_parts_ids_nodup g segments geoms segId tol hnodup) m hm

/-- C8: `InvalidateSegmentCache` removes exactly the cache rows of the given
segment — across all tolerances and activities — leaving every other row in
place; both the segment-update and the segment-delete paths apply it; and
after it runs, the next `GetActivitiesForSegment` call for that segment takes
the recompute path (cache miss) regardless of the clock, even inside the TTL
window. -/
theorem C8_invalidate_segment (st : List CacheRow) (segId : ℤ) :
    (∀ r, r ∈ invalidateSegmentCache st segId ↔ (r ∈ st ∧ r.segmentId ≠ segId)) ∧
    (∀ (g : GeoPrim) (segments : List FavoriteSegment) (geoms : List ActivityGeometry)
        (now tol : ℚ),
      (getActivitiesForSegment g segments geoms (invalidateSegmentCache st segId)
        now segId tol false).usedCache = false) ∧
    (∀ db : Store, db.cache = st →
      (∀ nm ng db2, updateFavoriteSegment db segId nm ng = some db2 →
        db2.cache = invalidateSegmentCache st segId) ∧
      (deleteFavoriteSegment db segId).2.cache = invalidateSegmentCache st segId) := by
  have hmem : ∀ r, r ∈ invalidateSegmentCache st segId ↔
      (r ∈ st ∧ r.segmentId ≠ segId) := by
    intro r
    simp [invalidateSegmentCache, List.mem_filter]
  refine ⟨hmem, ?_, ?_⟩
  · intro g segments geoms now tol
    cases husd : (getActivitiesForSegment g segments geoms
        (invalidateSegmentCache st segId) now segId tol false).usedCache with
    | false => rfl
    | true =>
      rcases (usedCache_iff g segments geoms (invalidateSegmentCache st segId)
          now segId tol false).mp husd with ⟨_, hne, _⟩
      exfalso
      apply hne
      apply List.eq_nil_iff_forall_not_mem.mpr
      intro r hr
      rcases mem_cachedMatchesFor.mp hr with ⟨hrmem, hrseg, _⟩
      exact ((hmem r).mp hrmem).2 hrseg
  · intro db hdb
    constructor
    · intro nm ng db2 hupd
      unfold updateFavoriteSegment at hupd
      cases hfind : db.segments.find? (fun s => s.id == segId) with
      | none =>
        rw [hfind] at hupd
        cases hupd
      | some s0 =>
        rw [hfind] at hupd
        injection hupd with hupd2
        rw [← hupd2, ← hdb]
    · unfold deleteFavoriteSegment
      cases h : db.segments.any (fun s => s.id == segId) <;> simp [h, hdb]

/-- Concrete distance table of the demonstration geometry oracle: vertex `1`
lies on every route; vertex `2` is `5 m` from route `10`, on route `11` and
`50 m` from route `12`; any other point is `7 m` away. -/
def demoDPR (v r : ℤ) : ℚ :=
  if v = 1 then 0
  else if v = 2 then (if r = 10 then 5 else if r = 11 then 0 else 50)
  else 7

/-- Segment lengths of the demonstration oracle. -/
def demoSegLen (s : List ℤ) : ℚ := if s = [1, 2] then 100 else 2

/-- Raw buffered-intersection lengths per route of the demonstration
oracle. -/
def demoRawInter (r : ℤ) : ℚ := if r = 10 then 80 else if r = 11 then 50 else 60

/-- Demonstration geometry oracle used by the concrete witnesses and
counterexamples. Intersection lengths are capped by the segment length so that
the `GeoPrim.Wf` facts hold. -/
def demoGeo : GeoPrim :=
  { dPointRoute := demoDPR
    dRouteLine := fun _ _ => 0
    dPointLine := fun p _ => if p = 21 then 50 else 0
    dPointPoint := fun _ _ => 1
    interLen := fun r _ s => min (demoRawInter r) (demoSegLen s)
    segLen := demoSegLen }

/-- The demonstration oracle satisfies the PostGIS metric facts. -/
theorem demoGeo_wf : demoGeo.Wf := by
  constructor
  · intro v r
    unfold demoGeo demoDPR
    dsimp only
    split_ifs <;> norm_num
  · intro p s
    unfold demoGeo
    dsimp only
    split_ifs <;> norm_num
  · intro r s v _
    unfold demoGeo demoDPR
    dsimp only
    split_ifs <;> norm_num
  · intro r t s
    unfold demoGeo
    dsimp only
    refine le_min ?_ ?_
    · unfold demoRawInter
      split_ifs <;> norm_num
    · unfold demoSegLen
      split_ifs <;> norm_num
  · intro r t s
    unfold demoGeo
    dsimp only
    exact min_le_right _ _

/-- Demonstration segment: id `1`, owned by athlete `1`, vertices `[1, 2]`. -/
def demoSegment : FavoriteSegment := ⟨1, 1, "loop", [1, 2]⟩

def demoSegments : List FavoriteSegment := [demoSegment]

/-- Demonstration routes: activity `42` of athlete `2` on route `10`,
activities `41` and `43` of athlete `1` on routes `11` and `12`. -/
def demoGeomA : ActivityGeometry := ⟨42, 2, 10⟩

def demoGeomB : ActivityGeometry := ⟨41, 1, 11⟩

def demoGeomC : ActivityGeometry := ⟨43, 1, 12⟩

def demoGeoms : List ActivityGeometry := [demoGeomA, demoGeomB, demoGeomC]

/-- Demonstration samples of activity `42` (athlete `2`): indices `0, 1, 2` at
locations `20, 21, 22`; the middle sample is `50 m` off the segment. -/
def demoSample0 : PointSample := ⟨42, 2, 0, 20, some 5, some 100, some 10⟩

def demoSample1 : PointSample := ⟨42, 2, 1, 21, some 7, some 200, none⟩

def demoSample2 : PointSample := ⟨42, 2, 2, 22, some 9, some 100, some 20⟩

/-- Demonstration samples of activity `41` (athlete `1`): on-segment but with
no heart-rate data at all. -/
def demoSample3 : PointSample := ⟨41, 1, 0, 30, none, none, some 8⟩

def demoSample4 : PointSample := ⟨41, 1, 1, 31, none, none, some 6⟩

def demoSamples : List PointSample :=
  [demoSample0, demoSample1, demoSample2, demoSample3, demoSample4]

def demoSummaryA : ActivitySummary := ⟨42, 2, 120, 9, 3600, 1000⟩

def demoSummaryB : ActivitySummary := ⟨41, 1, 130, 8, 3000, 900⟩

def demoSummaryC : ActivitySummary := ⟨43, 1, 140, 7, 2000, 800⟩

def demoSummaries : List ActivitySummary := [demoSummaryA, demoSummaryB, demoSummaryC]

/-- Demonstration store: segment `1` belongs to athlete `1`; the cache starts
empty. -/
def demoStore : Store := ⟨demoSegments, demoGeoms, demoSamples, demoSummaries, []⟩

/-- Whether the activities subroute rejected the request. -/
def ActivitiesResponse.isForbidden : ActivitiesResponse → Bool
  | .forbidden => true
  | .ok _ _ => false

/-- The activity ids served by the activities subroute. -/
def ActivitiesResponse.servedIds : ActivitiesResponse → List ℤ
  | .forbidden => []
  | .ok ids _ => ids

/-- The cache state after the activities subroute ran. -/
def ActivitiesResponse.cacheRows : ActivitiesResponse → List CacheRow
  | .forbidden => []
  | .ok _ c => c

/-- C9: evidence that cross-athlete requests are not rejected on the
segment-scoped subroutes. Segment `1` belongs to athlete `1`; the plain
`GET /api/segments/1` by athlete `2` is rejected with `Forbidden`, but the
same athlete's `GET /api/segments/1/activities` is served (listing the
requester's own matching activity `42`) and pollutes the shared cache with
entries for the foreign segment, and the indices subroute serves the resolved
range as well. -/
theorem C9_cross_athlete_not_rejected :
    demoSegment.athleteId = 1 ∧ (1 : ℤ) ≠ 2 ∧
    handleSegmentGet demoStore 2 1 = SegmentResponse.forbidden ∧
    (handleSegmentActivitiesGet demoGeo demoStore 0 2 1 15 false).isForbidden = false ∧
    (handleSegmentActivitiesGet demoGeo demoStore 0 2 1 15 false).servedIds = [42] ∧
    (handleSegmentActivitiesGet demoGeo demoStore 0 2 1 15 false).cacheRows ≠ [] ∧
    handleSegmentIndicesGet demoGeo demoStore 2 1 42 15 = IndicesResponse.ok 0 2 := by
  decide

/-- Scenario activity A of the specification: cached segment-scoped average
heart rate of `150`, no whole-activity value needed. -/
def exActivityA : ActivityWithMatch :=
  { summary := ⟨91, 1, 0, 0, 100, 10⟩, minDistanceM := 0, overlapLengthM := 0,
    overlapPercentage := 0, segmentAvgHr := some 150, segmentAvgSpeed := none }

/-- Scenario activity B of the specification: no segment-scoped metrics,
whole-activity average heart rate `140`. -/
def exActivityB : ActivityWithMatch :=
  { summary := ⟨92, 1, 140, 0, 100, 20⟩, minDistanceM := 0, overlapLengthM := 0,
    overlapPercentage := 0, segmentAvgHr := none, segmentAvgSpeed := none }

/-- C10: ranking by `avg_hr` (and `avg_speed`) returns a permutation of the
match list ordered by non-increasing key, where each item's key is its cached
segment-scoped value when present and otherwise the route's whole-activity
average (the two sources are never mixed within one item, and for
non-negative whole-activity averages the fallback is exactly the
whole-activity value); in the specification's scenario, activity A with
cached segment `avg_hr = 150` ranks before activity B whose only value is a
whole-route average of `140`. -/
theorem C10_ranking_by_avg (l : List ActivityWithMatch)
    (hhr : ∀ a ∈ l, 0 ≤ a.summary.averageHeartrate)
    (hsp : ∀ a ∈ l, 0 ≤ a.summary.averageSpeed) :
    ((sortActivitiesWithMatches l "avg_hr").Perm l ∧
     List.Sorted hrDesc (sortActivitiesWithMatches l "avg_hr") ∧
     (∀ a ∈ l, hrSortValue a = a.segmentAvgHr.getD a.summary.averageHeartrate)) ∧
    ((sortActivitiesWithMatches l "avg_speed").Perm l ∧
     List.Sorted speedDesc (sortActivitiesWithMatches l "avg_speed") ∧
     (∀ a ∈ l, speedSortValue a = a.segmentAvgSpeed.getD a.summary.averageSpeed)) ∧
    sortActivitiesWithMatches [exActivityB, exActivityA] "avg_hr"
      = [exActivityA, exActivityB] := by
  refine ⟨⟨?_, ?_, ?_⟩, ⟨?_, ?_, ?_⟩, ?_⟩
  · exact List.perm_insertionSort hrDesc l
  · exact List.sorted_insertionSort hrDesc l
  · intro a ha
    unfold hrSortValue
    cases a.segmentAvgHr with
    | some h => rfl
    | none =>
      dsimp only [Option.getD]
      by_cases hpos : 0 < a.summary.averageHeartrate
      · rw [if_pos hpos]
      · rw [if_neg hpos]
        have := hhr a ha
        have hz : a.summary.averageHeartrate = 0 := le_antisymm (not_lt.mp hpos) this
        rw [hz]
  · exact List.perm_insertionSort speedDesc l
  · exact List.sorted_insertionSort speedDesc l
  · intro a ha
    unfold speedSortValue
    cases a.segmentAvgSpeed with
    | some v => rfl
    | none =>
      dsimp only [Option.getD]
      by_cases hpos : 0 < a.summary.averageSpeed
      · rw [if_pos hpos]
      · rw [if_neg hpos]
        have := hsp a ha
        have hz : a.summary.averageSpeed = 0 := le_antisymm (not_lt.mp hpos) this
        rw [hz]
  · decide

/-- A stale cache row for segment `1`, activity `43`, tolerance `15`, written
at time `0`. -/
def demoOldCacheRow : CacheRow :=
  { segmentId := 1, activityId := 43, toleranceMeters := 15, minDistanceM := 3,
    overlapLengthM := 40, overlapPercentage := 40, startIndex := none,
    endIndex := none, avgHr := none, avgSpeed := none, distanceM := none,
    elevationGainM := none, cachedAt := 0 }

/-- A fresh cache row for segment `1`, activity `42`, tolerance `15`, written
at time `9000`. -/
def demoRecentCacheRow : CacheRow :=
  { segmentId := 1, activityId := 42, toleranceMeters := 15, minDistanceM := 5,
    overlapLengthM := 80, overlapPercentage := 80, startIndex := none,
    endIndex := none, avgHr := none, avgSpeed := none, distanceM := none,
    elevationGainM := none, cachedAt := 9000 }

/-- C1 witness: at the demonstration input, activity `42` (all vertices within
tolerance, positive overlap) is matched and activity `43` (one vertex `50 m`
away at tolerance `15`) is not. -/
theorem C1_witness :
    ((42 : ℤ) ∈ (find_route_parts_matching_segment demoGeo demoSegments demoGeoms 1 15).map
      (fun m => m.activityId)) ∧
    ((43 : ℤ) ∉ (find_route_parts_matching_segment demoGeo demoSegments demoGeoms 1 15).map
      (fun m => m.activityId)) := by
  have hA := C1_find_matches_membership demoGeo demoGeo_wf demoSegments demoGeoms 1 15
    demoSegment (by decide) (by decide) (by decide) demoGeomA (by decide)
  have hC := C1_find_matches_membership demoGeo demoGeo_wf demoSegments demoGeoms 1 15
    demoSegment (by decide) (by decide) (by decide) demoGeomC (by decide)
  constructor
  · exact hA.1.mpr (by decide)
  · exact hC.2 ⟨2, by decide, by decide⟩

/-- C2 counterexample: at the demonstration input the by-name matcher reports
`min_distance_m = 0` (the minimum route-to-line distance) although the maximum
per-vertex distance for the same route is `5`, refuting the claim that every
matcher entry point reports the per-vertex maximum. -/
theorem C2_counterexample :
    (find_route_parts_matching_segment_by_name demoGeo demoSegments [demoGeomA]
        "loop" 15).map (fun m => m.minDistanceM) = [0] ∧
    maxPointDistance demoGeo demoSegment.geog demoGeomA.routeGeog = 5 ∧
    ((0 : ℚ) ≠ 5) := by
  decide

/-- C2 witness: both matcher rows of the demonstration input satisfy the
amended bound `min_distance_m ≤ tolerance`. -/
theorem C2_witness :
    (matchRowOf demoGeo 1 15 demoSegment demoGeomA).minDistanceM ≤ 15 ∧
    (matchRowByNameOf demoGeo 15 demoSegment demoGeomA).minDistanceM ≤ 15 := by
  have h := C2_min_distance_semantics demoGeo demoGeo_wf demoSegments [demoGeomA]
    1 "loop" 15 demoSegment (by decide)
  constructor
  · exact (h.1 _ ((mem_find_route_parts (by decide)).mpr
      ⟨demoGeomA, by decide, by decide, by decide, rfl⟩)).2
  · exact (h.2 _ (mem_find_by_name.mpr
      ⟨demoSegment, by decide, by decide, demoGeomA, by decide, by decide, rfl⟩)).2

/-- C3 witness: the overlap percentages of the demonstration rows, and the
value recomputed when caching, lie within `[0, 100]`. -/
theorem C3_witness :
    (0 ≤ (matchRowOf demoGeo 1 15 demoSegment demoGeomA).overlapPercentage ∧
     (matchRowOf demoGeo 1 15 demoSegment demoGeomA).overlapPercentage ≤ 100) ∧
    (0 ≤ (matchRowByNameOf demoGeo 15 demoSegment demoGeomA).overlapPercentage ∧
     (matchRowByNameOf demoGeo 15 demoSegment demoGeomA).overlapPercentage ≤ 100) ∧
    (0 ≤ cacheOverlapPct (matchRowOf demoGeo 1 15 demoSegment demoGeomA)
        (segLenOf demoGeo demoSegments 1) ∧
     cacheOverlapPct (matchRowOf demoGeo 1 15 demoSegment demoGeomA)
        (segLenOf demoGeo demoSegments 1) ≤ 100) := by
  have h := C3_overlap_percentage_clamped demoGeo demoGeo_wf demoSegments [demoGeomA]
    1 "loop" 15 demoSegment (by decide)
  have hmemP : matchRowOf demoGeo 1 15 demoSegment demoGeomA ∈
      find_route_parts_matching_segment demoGeo demoSegments [demoGeomA] 1 15 :=
    (mem_find_route_parts (by decide)).mpr ⟨demoGeomA, by decide, by decide, by decide, rfl⟩
  have hmemN : matchRowByNameOf demoGeo 15 demoSegment demoGeomA ∈
      find_route_parts_matching_segment_by_name demoGeo demoSegments [demoGeomA]
        "loop" 15 :=
    mem_find_by_name.mpr ⟨demoSegment, by decide, by decide, demoGeomA, by decide, by decide, rfl⟩
  exact ⟨⟨(h.1 _ hmemP).2.1, (h.1 _ hmemP).2.2⟩,
    ⟨(h.2.1 _ hmemN).2.1, (h.2.1 _ hmemN).2.2⟩,
    ⟨(h.2.2 _ hmemP).2.1, (h.2.2 _ hmemP).2.2⟩⟩

/-- C4 witness: at the demonstration input the resolver returns the range
`[0, 2]`, and the claim theorem yields `start_index ≤ end_index` there. -/
theorem C4_witness :
    find_segment_point_indices demoGeo demoSegments demoSamples 1 42 2 15
      = some (0, 2) ∧ (0 : ℤ) ≤ 2 := by
  have h := C4_resolve_range demoGeo demoSegments demoSamples 1 42 2 15 demoSegment
    (by decide)
  have heq : find_segment_point_indices demoGeo demoSegments demoSamples 1 42 2 15
      = some (0, 2) := by decide
  exact ⟨heq, (h.1 0 2 heq).2.2.2⟩

/-- C5 counterexample: sample `1` of activity `42` lies inside the resolved
range `[0, 2]` but `50 m` off the segment; the code's metrics exclude it
(`avg_hr = 100` over the two on-segment samples), while aggregating over the
whole contiguous range as claimed would include its heart rate of `200`
(`avg_hr = 400/3`). -/
theorem C5_counterexample :
    find_segment_point_indices demoGeo demoSegments demoSamples 1 42 2 15
      = some (0, 2) ∧
    (demoSample1.pointIndex = 1 ∧
      ¬(demoGeo.dPointLine demoSample1.location demoSegment.geog ≤ 15)) ∧
    (get_activity_segment_metrics demoGeo demoSegments demoSamples 1 42 2 15).avgHr
      = 100 ∧
    (metricsOverIndexRange_claim demoGeo demoSamples 42 2 0 2).avgHr = 400 / 3 ∧
    ((100 : ℚ) ≠ 400 / 3) := by
  refine ⟨by decide, by decide, ?_, ?_, by norm_num⟩
  · norm_num [get_activity_segment_metrics, segment_metrics, activitySegmentPoints,
      sampleFilter, avgOverPresent, List.insertionSort, List.orderedInsert, idxLe,
      List.find?, List.filter, List.filterMap, demoGeo, demoSegments, demoSegment,
      demoSamples, demoSample0, demoSample1, demoSample2, demoSample3, demoSample4]
  · norm_num [metricsOverIndexRange_claim, avgOverPresent, List.insertionSort,
      List.orderedInsert, idxLe, List.filter, List.filterMap, demoGeo, demoSamples,
      demoSample0, demoSample1, demoSample2, demoSample3, demoSample4]

/-- C5 witness: at the demonstration input, restricting the route's samples to
the resolved range `[0, 2]` does not change the computed metrics. -/
theorem C5_witness :
    get_activity_segment_metrics demoGeo demoSegments demoSamples 1 42 2 15 =
      get_activity_segment_metrics demoGeo demoSegments
        (demoSamples.filter (fun p =>
          !(p.activityId == (42 : ℤ) && p.athleteId == (2 : ℤ))
            || (decide ((0 : ℤ) ≤ p.pointIndex) && decide (p.pointIndex ≤ (2 : ℤ)))))
        1 42 2 15 :=
  (C5_metrics_over_within_tolerance_samples demoGeo demoSegments demoSamples 1 42 2 15
    demoSegment (by decide) 0 2 (by decide)).2

/-- C6 counterexample: activity `41` has on-segment samples but no heart-rate
data anywhere; the aggregation stage is absent (`NULL`), yet the function's
output carries `avg_hr = 0` — a present zero, not an absent value. -/
theorem C6_counterexample :
    activitySegmentPoints demoGeo demoSegment demoSamples 41 1 15 ≠ [] ∧
    (segment_metrics demoGeo demoSegment demoSamples 41 1 15).avgHr = none ∧
    (get_activity_segment_metrics demoGeo demoSegments demoSamples 1 41 1 15).avgHr
      = 0 := by
  decide

/-- C6 witness: at the demonstration input the function's output equals the
aggregation-stage average coalesced with `0`. -/
theorem C6_witness :
    (get_activity_segment_metrics demoGeo demoSegments demoSamples 1 41 1 15).avgHr
      = ((segment_metrics demoGeo demoSegment demoSamples 41 1 15).avgHr).getD 0 :=
  (C6_avg_over_present_samples demoGeo demoSegments demoSamples 1 41 1 15 demoSegment
    (by decide)).2.2.2.2.1

/-- C7 counterexample: a force-refresh re-runs the matcher (which returns
activities `42` and `41` but not `43`), yet the previously cached row of
`(segment 1, activity 43, tolerance 15)` survives in the cache unchanged — the
resulting entries do not overwrite the cached entries of the
`(segment_id, tolerance)` key as a whole, they are only upserted per
activity. -/
theorem C7_counterexample :
    (getActivitiesForSegment demoGeo demoSegments demoGeoms [demoOldCacheRow]
        10000 1 15 true).usedCache = false ∧
    ((getActivitiesForSegment demoGeo demoSegments demoGeoms [demoOldCacheRow]
        10000 1 15 true).matchList.map (fun m => m.activityId) = [42, 41]) ∧
    demoOldCacheRow ∈ (getActivitiesForSegment demoGeo demoSegments demoGeoms
        [demoOldCacheRow] 10000 1 15 true).cache ∧
    demoOldCacheRow.segmentId = 1 ∧ demoOldCacheRow.toleranceMeters = 15 ∧
    (43 : ℤ) ∉ ((getActivitiesForSegment demoGeo demoSegments demoGeoms
        [demoOldCacheRow] 10000 1 15 true).matchList.map (fun m => m.activityId)) := by
  decide

/-- C7 witness: a cache entry one thousand seconds old is inside the TTL
window, so the cached list is used. -/
theorem C7_witness :
    (getActivitiesForSegment demoGeo demoSegments demoGeoms [demoRecentCacheRow]
        10000 1 15 false).usedCache = true := by
  have h := C7_cache_freshness_and_refresh demoGeo demoSegments demoGeoms
    [demoRecentCacheRow] 10000 1 15 false (by decide)
  refine h.1.mpr ⟨rfl, demoRecentCacheRow, by decide, by decide, by decide, ?_, ?_⟩
  · intro r2 hr2 _ _
    have : r2 = demoRecentCacheRow := by
      cases hr2 with
      | head => rfl
      | tail _ h2 => cases h2
    rw [this]
  · norm_num [demoRecentCacheRow, cacheTTL]

/-- C8 witness: invalidating segment `1` removes its row, the next list call
takes the recompute path, and the delete path's cache equals the invalidated
cache. -/
theorem C8_witness :
    demoOldCacheRow ∉ invalidateSegmentCache [demoOldCacheRow] 1 ∧
    (getActivitiesForSegment demoGeo demoSegments demoGeoms
        (invalidateSegmentCache [demoOldCacheRow] 1) 10 1 15 false).usedCache = false ∧
    (deleteFavoriteSegment demoStore 1).2.cache
      = invalidateSegmentCache ([] : List CacheRow) 1 := by
  have h := C8_invalidate_segment [demoOldCacheRow] 1
  have h2 := C8_invalidate_segment ([] : List CacheRow) 1
  refine ⟨?_, h.2.1 demoGeo demoSegments demoGeoms 10 15, (h2.2.2 demoStore rfl).2⟩
  intro hm
  exact ((h.1 demoOldCacheRow).mp hm).2 (by decide)

/-- C10 witness: the specification's scenario — cached segment average `150`
against whole-route average `140` — ranks A first. -/
theorem C10_witness :
    sortActivitiesWithMatches [exActivityB, exActivityA] "avg_hr"
      = [exActivityA, exActivityB] :=
  (C10_ranking_by_avg [exActivityB, exActivityA] (by decide) (by decide)).2.2

end B11k
